import Mathlib

/-!
# The catapult controller of `src/MyRobot.cpp`

A shallow embedding of the class `Catapult` (lines 57-192 of `src/MyRobot.cpp`) and of the
parts of `RobotDemo` that drive it: the reload of the tuning values, `GetAnalogScaled` and the
operator cycle `ProcessLaunchStickOther`.

* The C++ `float` values are modelled as rationals (`ℚ`): the controller only
  negates, compares and stores them, and decimal constants are read at face value.
* The four `CANJaguar` references and the dashboard entry `"CatapultSpeed"` are
  modelled by the last value written to each of them.
* `Potent.GetVoltage()` is an input: the value read during a call is an argument.
* Member functions are programs in the monad `Op`, which threads the object
  state and records, in order, every call of `Set` and of `Wait`.
* The preference store is a partial map from key to value; buttons and analog inputs of the
  driver station are functions from the button or channel number.
-/

namespace Catapult

/-- The enumeration `Catapult::CatapultModes`. -/
inductive CatapultModes where
  | Idle
  | Manual
  | Pickup
  | Carry
deriving DecidableEq, Repr

end Catapult

/-- The object state of `Catapult` together with the devices it writes: `Left1`, `Left2`,
`Right1`, `Right2` hold the last value passed to each motor controller and `CatapultSpeed`
the last value published under that dashboard key. -/
structure Catapult where
  Left1 : ℚ
  Left2 : ℚ
  Right1 : ℚ
  Right2 : ℚ
  CatapultSpeed : ℚ
  isLaunchOverride : Bool
  Mode : Catapult.CatapultModes
  CarryPosition : ℚ
  StowPosition : ℚ
deriving DecidableEq

namespace Catapult

/-- What a member function does to the outside world, one entry per call: `set after` is a
call of `Set`, with the state right after it; `wait time` is a call of `Wait(time)`. -/
inductive Event where
  | set (after : Catapult)
  | wait (time : ℚ)
deriving DecidableEq

/-- A member function: from the state at entry to its return value, the state at exit and the
events it produced, in order. -/
def Op (α : Type) : Type := Catapult → α × Catapult × List Event

instance : Monad Op where
  pure a := fun c => (a, c, [])
  bind m f := fun c =>
    let r := m c
    let q := f r.1 r.2.1
    (q.1, q.2.1, r.2.2 ++ q.2.2)

/-- Reads the current object state. -/
def Op.read : Op Catapult := fun c => (c, c, [])

/-- Assigns to member variables. -/
def Op.modify (f : Catapult → Catapult) : Op Unit := fun c => ((), f c, [])

/-- State at exit of `m` entered in state `c`. -/
def Op.exec {α : Type} (m : Op α) (c : Catapult) : Catapult := (m c).2.1

/-- Events produced by `m` entered in state `c`. -/
def Op.events {α : Type} (m : Op α) (c : Catapult) : List Event := (m c).2.2

/-- The actuator emissions among some events: the state right after each call of `Set`. -/
def emissions : List Event → List Catapult
  | [] => []
  | Event.set after :: es => after :: emissions es
  | Event.wait _ :: es => emissions es

/-- The actuator emissions of `m` entered in state `c`. -/
def Op.emitted {α : Type} (m : Op α) (c : Catapult) : List Catapult := emissions (m.events c)

/-- The state in which the actuator carries command `v`: published value and both left
outputs `v`, both right outputs `-v`; everything else as in `c`. -/
def commanded (c : Catapult) (v : ℚ) : Catapult :=
  { c with CatapultSpeed := v, Left1 := v, Left2 := v, Right1 := -v, Right2 := -v }

/-- `Wait(time)` of the library: suspends the caller; the object state is untouched. -/
def Wait (time : ℚ) : Op Unit := fun c => ((), c, [Event.wait time])

/-- `Catapult::Set` (lines 162-169). -/
def Set (speed : ℚ) : Op Unit := fun c =>
  let c1 := { c with CatapultSpeed := speed }
  let c2 := { c1 with Left1 := speed }
  let c3 := { c2 with Left2 := speed }
  let c4 := { c3 with Right1 := -speed }
  let c5 := { c4 with Right2 := -speed }
  ((), c5, [Event.set c5])

/-- `Catapult::SetManual` (lines 87-93). -/
def SetManual (speed : ℚ) : Op Unit := do
  if CatapultModes.Manual = (← Op.read).Mode then
    Set speed

/-- `Catapult::Launch` (lines 95-102). -/
def Launch (speed time : ℚ) : Op Unit := do
  Op.modify fun c => { c with isLaunchOverride := true }
  Set (-speed)
  Wait time
  Set 0
  Op.modify fun c => { c with isLaunchOverride := false }

/-- `Catapult::PIDWrite` (lines 104-110). -/
def PIDWrite (speed : ℚ) : Op Unit := do
  if !(← Op.read).isLaunchOverride then
    Set (-speed)

/-- `Catapult::SetMode` (lines 112-115). -/
def SetMode (newMode : CatapultModes) : Op Unit :=
  Op.modify fun c => { c with Mode := newMode }

/-- `Catapult::IsClawAbovePickup` (lines 171-174); `volts` is `Potent.GetVoltage()`. -/
def IsClawAbovePickup (volts : ℚ) : Op Bool := do
  return decide (volts < (← Op.read).CarryPosition)

/-- `Catapult::IsClawBelowCarry` (lines 176-179); `volts` is `Potent.GetVoltage()`. -/
def IsClawBelowCarry (volts : ℚ) : Op Bool := do
  return decide (volts > (← Op.read).StowPosition)

/-- `Catapult::ProcessMode` (lines 117-148); `volts` is `Potent.GetVoltage()`. -/
def ProcessMode (volts : ℚ) : Op Unit := do
  match (← Op.read).Mode with
  | CatapultModes.Idle => Set 0
  | CatapultModes.Manual => pure ()
  | CatapultModes.Pickup =>
    if (← IsClawAbovePickup volts) then
      Set (-0.1)
    else
      Set 0
  | CatapultModes.Carry =>
    if (← IsClawBelowCarry volts) then
      Set 0.2
    else
      Set 0

/-- The constructor `Catapult::Catapult` (lines 68-85): override off, mode `Idle`, default
thresholds; no output has been written yet, which reads as 0. -/
def constructed : Catapult :=
  { Left1 := 0, Left2 := 0, Right1 := 0, Right2 := 0, CatapultSpeed := 0,
    isLaunchOverride := false, Mode := CatapultModes.Idle,
    CarryPosition := 2.15, StowPosition := 1.9 }

/-- The part of `Launch` before the `Wait` (lines 97-98). -/
def LaunchEntry (speed : ℚ) : Op Unit := do
  Op.modify fun c => { c with isLaunchOverride := true }
  Set (-speed)

/-- The part of `Launch` after the `Wait` (lines 100-101). -/
def LaunchExit : Op Unit := do
  Set 0
  Op.modify fun c => { c with isLaunchOverride := false }

/-- The feedback loop as the controller sees it: `PIDWrite` called once per correction value,
in order. -/
def PIDWrites : List ℚ → Op Unit
  | [] => pure ()
  | x :: xs => do
    PIDWrite x
    PIDWrites xs

/-- The actuator outputs: the values on `Left1`, `Left2`, `Right1`, `Right2`. -/
def outputs (c : Catapult) : ℚ × ℚ × ℚ × ℚ := (c.Left1, c.Left2, c.Right1, c.Right2)

/-- The preference store read through `Preferences*`: a partial map from key to value. -/
abbrev Preferences : Type := String → Option ℚ

/-- `Preferences::GetFloat(key, defaultValue)` of the library: the stored value of `key`, or
`defaultValue` when the store has none. -/
def GetFloat (prefs : Preferences) (key : String) (defaultValue : ℚ) : ℚ :=
  match prefs key with
  | some value => value
  | none => defaultValue

/-- `Catapult::InitializeVariablesFromParams` (lines 150-154). -/
def InitializeVariablesFromParams (prefs : Preferences) : Op Unit := do
  Op.modify fun c => { c with CarryPosition := GetFloat prefs "CarryPosition" 2.15 }
  Op.modify fun c => { c with StowPosition := GetFloat prefs "StowPosition" 1.9 }

/-- One completed call of a public member function of `Catapult`, with its arguments. -/
inductive Call where
  | setManual (speed : ℚ)
  | launch (speed time : ℚ)
  | pidWrite (speed : ℚ)
  | setMode (newMode : CatapultModes)
  | processMode (volts : ℚ)
  | reload (prefs : Preferences)

/-- The member function a call runs. -/
def perform : Call → Op Unit
  | Call.setManual speed => SetManual speed
  | Call.launch speed time => Launch speed time
  | Call.pidWrite speed => PIDWrite speed
  | Call.setMode newMode => SetMode newMode
  | Call.processMode volts => ProcessMode volts
  | Call.reload prefs => InitializeVariablesFromParams prefs

/-- A finite sequence of completed calls, run in order. -/
def performAll : List Call → Op Unit
  | [] => pure ()
  | k :: ks => do
    perform k
    performAll ks

/-- The mirrored shape of the outputs: left outputs equal, right outputs equal, each right
output the negation of the left one, published command equal to the left output. -/
def Mirrored (c : Catapult) : Prop :=
  c.Left1 = c.Left2 ∧ c.Right1 = c.Right2 ∧ c.Right1 = -c.Left1 ∧ c.Right2 = -c.Left2 ∧
    c.CatapultSpeed = c.Left1

instance (c : Catapult) : Decidable (Mirrored c) := by
  unfold Mirrored
  infer_instance

end Catapult

/-- The members of `RobotDemo` that the catapult code reads or writes: the catapult `Thrower`
and the launch duration `LaunchTime`. -/
structure RobotDemo where
  Thrower : Catapult
  LaunchTime : ℚ
deriving DecidableEq

namespace RobotDemo

/-- The members as the initialiser list of the constructor leaves them (lines 234-262):
`Thrower` constructed, `LaunchTime(.3)`. -/
def initialised : RobotDemo :=
  { Thrower := Catapult.constructed, LaunchTime := 0.3 }

/-- `RobotDemo::InitializeVariablesFromParams` (lines 275-280); `prefs` is the store behind
`Preferences::GetInstance()`. -/
def InitializeVariablesFromParams (prefs : Catapult.Preferences) (self : RobotDemo) :
    RobotDemo :=
  let self1 := { self with LaunchTime := Catapult.GetFloat prefs "LaunchTime" 0.3 }
  { self1 with Thrower := (Catapult.InitializeVariablesFromParams prefs).exec self1.Thrower }

/-- `RobotDemo::GetAnalogScaled` (lines 326-333); `analogIn channel` is
`DriverStation::GetInstance()->GetAnalogIn(channel)`. -/
def GetAnalogScaled (analogIn : ℕ → ℚ) (channel : ℕ) (minimum maximum : ℚ) : ℚ :=
  let rawValue := analogIn channel
  let range := maximum - minimum
  let scaledValue := (rawValue / 5) * range
  let shiftedValue := scaledValue + minimum
  shiftedValue

/-- `RobotDemo::ProcessLaunchStickOther` (lines 335-375), as a program on `Thrower`:
`LaunchTime` is the member read at line 357, `LaunchStick n` is
`LaunchStick.GetRawButton(n)`, `volts` is the potentiometer voltage during the cycle. The
compressor, dashboard and roller statements (lines 338, 356, 358, 377-386) touch no member of
the catapult and are left out. -/
def ProcessLaunchStickOther (LaunchTime : ℚ) (LaunchStick : ℕ → Bool) (analogIn : ℕ → ℚ)
    (volts : ℚ) : Catapult.Op Unit := do
  let realLaunchSpeed := GetAnalogScaled analogIn 1 0.5 1
  if LaunchStick 5 then
    Catapult.SetMode Catapult.CatapultModes.Pickup
  if LaunchStick 4 then
    Catapult.SetMode Catapult.CatapultModes.Carry
  if LaunchStick 7 || LaunchStick 10 then
    Catapult.SetMode Catapult.CatapultModes.Idle
  if LaunchStick 1 then
    Catapult.SetMode Catapult.CatapultModes.Idle
    Catapult.Launch realLaunchSpeed LaunchTime
  if LaunchStick 11 then
    Catapult.SetMode Catapult.CatapultModes.Manual
    Catapult.SetManual 0.1
  else if LaunchStick 6 then
    Catapult.SetMode Catapult.CatapultModes.Manual
    Catapult.SetManual (-0.1)
  else
    Catapult.SetManual 0
  Catapult.ProcessMode volts

end RobotDemo

namespace Catapult

/-! ## Running the operations -/

theorem exec_of_apply {α : Type} {m : Op α} {c : Catapult} {r : α × Catapult × List Event}
    (h : m c = r) : m.exec c = r.2.1 := by
  subst h; rfl

theorem events_of_apply {α : Type} {m : Op α} {c : Catapult} {r : α × Catapult × List Event}
    (h : m c = r) : m.events c = r.2.2 := by
  subst h; rfl

theorem emitted_of_apply {α : Type} {m : Op α} {c : Catapult} {r : α × Catapult × List Event}
    (h : m c = r) : m.emitted c = emissions r.2.2 := by
  subst h; rfl

theorem bind_apply {α β : Type} (m : Op α) (f : α → Op β) (c : Catapult) :
    (m >>= f) c = ((f (m c).1 (m c).2.1).1, (f (m c).1 (m c).2.1).2.1,
      (m c).2.2 ++ (f (m c).1 (m c).2.1).2.2) := rfl

theorem Set_apply (v : ℚ) (c : Catapult) :
    Set v c = ((), commanded c v, [Event.set (commanded c v)]) := rfl

theorem PIDWrite_apply (s : ℚ) (c : Catapult) :
    PIDWrite s c = if c.isLaunchOverride = true then ((), c, []) else Set (-s) c := by
  cases h : c.isLaunchOverride <;> simp [PIDWrite, Op.read, bind, pure, h]

theorem SetManual_apply (x : ℚ) (c : Catapult) :
    SetManual x c = if c.Mode = CatapultModes.Manual then Set x c else ((), c, []) := by
  by_cases h : c.Mode = CatapultModes.Manual
  · simp [SetManual, Op.read, bind, pure, h]
  · have h2 : ¬ CatapultModes.Manual = c.Mode := fun e => h e.symm
    simp [SetManual, Op.read, bind, pure, h, h2]

theorem ProcessMode_apply (p : ℚ) (c : Catapult) :
    ProcessMode p c =
      match c.Mode with
      | CatapultModes.Idle => Set 0 c
      | CatapultModes.Manual => ((), c, [])
      | CatapultModes.Pickup => if p < c.CarryPosition then Set (-0.1) c else Set 0 c
      | CatapultModes.Carry => if p > c.StowPosition then Set 0.2 c else Set 0 c := by
  cases h : c.Mode
  · simp [ProcessMode, Op.read, bind, pure, h]
  · simp [ProcessMode, Op.read, bind, pure, h]
  · by_cases hp : p < c.CarryPosition <;>
      simp [ProcessMode, IsClawAbovePickup, Op.read, bind, pure, h, hp]
  · by_cases hp : p > c.StowPosition <;>
      simp [ProcessMode, IsClawBelowCarry, Op.read, bind, pure, h, hp]

theorem Launch_apply (s t : ℚ) (c : Catapult) :
    Launch s t c =
      ((), { commanded c 0 with isLaunchOverride := false },
        [Event.set (commanded { c with isLaunchOverride := true } (-s)), Event.wait t,
         Event.set (commanded { c with isLaunchOverride := true } 0)]) := by
  simp [Launch, Op.modify, Set, Wait, commanded, bind]

theorem PIDWrites_locked (xs : List ℚ) (c : Catapult) (h : c.isLaunchOverride = true) :
    PIDWrites xs c = ((), c, []) := by
  induction xs with
  | nil => rfl
  | cons x xs ih =>
    have hx : PIDWrite x c = ((), c, []) := by rw [PIDWrite_apply]; simp [h]
    simp [PIDWrites, bind, hx, ih]

theorem SetMode_apply (m : CatapultModes) (c : Catapult) :
    SetMode m c = ((), { c with Mode := m }, []) := rfl

theorem InitializeVariablesFromParams_apply (prefs : Preferences) (c : Catapult) :
    InitializeVariablesFromParams prefs c =
      ((), { c with CarryPosition := GetFloat prefs "CarryPosition" 2.15,
                    StowPosition := GetFloat prefs "StowPosition" 1.9 }, []) := rfl

theorem emissions_append (xs ys : List Event) :
    emissions (xs ++ ys) = emissions xs ++ emissions ys := by
  induction xs with
  | nil => rfl
  | cons x xs ih => cases x <;> simp [emissions, ih]

theorem exec_bind {α β : Type} (m : Op α) (f : α → Op β) (c : Catapult) :
    (m >>= f).exec c = (f (m c).1).exec (m.exec c) := rfl

theorem emitted_bind {α β : Type} (m : Op α) (f : α → Op β) (c : Catapult) :
    (m >>= f).emitted c = m.emitted c ++ (f (m c).1).emitted (m.exec c) := by
  show emissions ((m c).2.2 ++ (f (m c).1 (m c).2.1).2.2) = _
  rw [emissions_append]
  rfl

theorem perform_apply (k : Call) (c : Catapult) :
    perform k c =
      match k with
      | Call.setManual x => if c.Mode = CatapultModes.Manual then Set x c else ((), c, [])
      | Call.launch s t =>
        ((), { commanded c 0 with isLaunchOverride := false },
          [Event.set (commanded { c with isLaunchOverride := true } (-s)), Event.wait t,
           Event.set (commanded { c with isLaunchOverride := true } 0)])
      | Call.pidWrite s => if c.isLaunchOverride = true then ((), c, []) else Set (-s) c
      | Call.setMode m => ((), { c with Mode := m }, [])
      | Call.processMode p =>
        match c.Mode with
        | CatapultModes.Idle => Set 0 c
        | CatapultModes.Manual => ((), c, [])
        | CatapultModes.Pickup => if p < c.CarryPosition then Set (-0.1) c else Set 0 c
        | CatapultModes.Carry => if p > c.StowPosition then Set 0.2 c else Set 0 c
      | Call.reload prefs =>
        ((), { c with CarryPosition := GetFloat prefs "CarryPosition" 2.15,
                      StowPosition := GetFloat prefs "StowPosition" 1.9 }, []) := by
  cases k with
  | setManual x => exact SetManual_apply x c
  | launch s t => exact Launch_apply s t c
  | pidWrite s => exact PIDWrite_apply s c
  | setMode m => rfl
  | processMode p => exact ProcessMode_apply p c
  | reload prefs => rfl

theorem performAll_exec_invariant (P : Catapult → Prop)
    (hP : ∀ (k : Call) (c : Catapult), P c → P ((perform k).exec c)) :
    ∀ (ks : List Call) (c : Catapult), P c → P ((performAll ks).exec c) := by
  intro ks
  induction ks with
  | nil => intro c hc; exact hc
  | cons k ks ih =>
    intro c hc
    show P ((perform k >>= fun _ => performAll ks).exec c)
    rw [exec_bind]
    exact ih _ (hP k c hc)

theorem Mirrored_commanded (c : Catapult) (v : ℚ) : Mirrored (commanded c v) := by
  simp [Mirrored, commanded]

theorem perform_shape (k : Call) (c : Catapult) :
    (∃ d : Catapult, perform k c = ((), d, []) ∧ outputs d = outputs c ∧
      d.CatapultSpeed = c.CatapultSpeed ∧ d.isLaunchOverride = c.isLaunchOverride) ∨
    (∃ v : ℚ, perform k c = Set v c ∧ ∀ s t, k ≠ Call.launch s t) ∨
    (∃ s t : ℚ, k = Call.launch s t ∧ perform k c = Launch s t c) := by
  cases k with
  | setManual x =>
    by_cases h : c.Mode = CatapultModes.Manual
    · exact Or.inr (Or.inl ⟨x, by rw [perform_apply]; simp [h], by intro s t; simp⟩)
    · exact Or.inl ⟨c, by rw [perform_apply]; simp [h], rfl, rfl, rfl⟩
  | launch s t => exact Or.inr (Or.inr ⟨s, t, rfl, rfl⟩)
  | pidWrite s =>
    by_cases h : c.isLaunchOverride = true
    · exact Or.inl ⟨c, by rw [perform_apply]; simp [h], rfl, rfl, rfl⟩
    · exact Or.inr (Or.inl ⟨-s, by rw [perform_apply]; simp [h], by intro s t; simp⟩)
  | setMode m => exact Or.inl ⟨_, rfl, rfl, rfl, rfl⟩
  | processMode p =>
    cases hm : c.Mode with
    | Idle => exact Or.inr (Or.inl ⟨0, by rw [perform_apply]; simp [hm], by intro s t; simp⟩)
    | Manual => exact Or.inl ⟨c, by rw [perform_apply]; simp [hm], rfl, rfl, rfl⟩
    | Pickup =>
      by_cases hp : p < c.CarryPosition
      · exact Or.inr (Or.inl ⟨-0.1, by rw [perform_apply]; simp [hm, hp], by intro s t; simp⟩)
      · exact Or.inr (Or.inl ⟨0, by rw [perform_apply]; simp [hm, hp], by intro s t; simp⟩)
    | Carry =>
      by_cases hp : p > c.StowPosition
      · exact Or.inr (Or.inl ⟨0.2, by rw [perform_apply]; simp [hm, hp], by intro s t; simp⟩)
      · exact Or.inr (Or.inl ⟨0, by rw [perform_apply]; simp [hm, hp], by intro s t; simp⟩)
  | reload prefs => exact Or.inl ⟨_, rfl, rfl, rfl, rfl⟩

theorem perform_preserves_Mirrored (k : Call) (c : Catapult) (h : Mirrored c) :
    Mirrored ((perform k).exec c) := by
  rcases perform_shape k c with ⟨d, hd, ho, hs, _⟩ | ⟨v, hv, _⟩ | ⟨s, t, _, hl⟩
  · rw [exec_of_apply hd]
    simp only [outputs, Prod.mk.injEq] at ho
    obtain ⟨h1, h2, h3, h4⟩ := ho
    simp only [Mirrored] at h ⊢
    show d.Left1 = d.Left2 ∧ d.Right1 = d.Right2 ∧ d.Right1 = -d.Left1 ∧ d.Right2 = -d.Left2 ∧
      d.CatapultSpeed = d.Left1
    rw [h1, h2, h3, h4, hs]
    exact h
  · rw [exec_of_apply hv, Set_apply]
    exact Mirrored_commanded c v
  · rw [exec_of_apply hl, Launch_apply]
    simp [Mirrored, commanded]

/-! ## Feedback arbitration -/

/-- C1: with `isLaunchOverride` false, `PIDWrite s` makes exactly one emission, of command
`-s` (left pair `-s`, right pair `s`), whatever the mode; with `isLaunchOverride` true it
leaves the whole state unchanged and emits nothing. -/
theorem PIDWrite_gated_by_override_only (c : Catapult) (s : ℚ) :
    (c.isLaunchOverride = false →
      (PIDWrite s).exec c = commanded c (-s) ∧
      (PIDWrite s).emitted c = [commanded c (-s)] ∧
      ((PIDWrite s).exec c).Left1 = -s ∧ ((PIDWrite s).exec c).Left2 = -s ∧
      ((PIDWrite s).exec c).Right1 = s ∧ ((PIDWrite s).exec c).Right2 = s ∧
      ((PIDWrite s).exec c).CatapultSpeed = -s) ∧
    (c.isLaunchOverride = true →
      (PIDWrite s).exec c = c ∧ (PIDWrite s).emitted c = []) := by
  constructor
  · intro h
    simp [PIDWrite, Op.exec, Op.emitted, Op.events, Op.read, Set, commanded, emissions,
      bind, pure, h]
  · intro h
    simp [PIDWrite, Op.exec, Op.emitted, Op.events, Op.read, emissions, bind, pure, h]

/-- Witness for C1: in the constructed state (mode `Idle`, override off) `PIDWrite 0.4` puts
`-0.4` on the left pair and `0.4` on the right pair; with the override on it changes nothing. -/
theorem PIDWrite_gated_by_override_only_witness :
    constructed.Mode = CatapultModes.Idle ∧
    ((PIDWrite 0.4).exec constructed).Left1 = -0.4 ∧
    ((PIDWrite 0.4).exec constructed).Right1 = 0.4 ∧
    (PIDWrite 0.4).exec { constructed with isLaunchOverride := true } =
      { constructed with isLaunchOverride := true } :=
  ⟨rfl,
   ((PIDWrite_gated_by_override_only constructed 0.4).1 rfl).2.2.1,
   ((PIDWrite_gated_by_override_only constructed 0.4).1 rfl).2.2.2.2.1,
   ((PIDWrite_gated_by_override_only { constructed with isLaunchOverride := true } 0.4).2
      rfl).1⟩

/-! ## Timed launch -/

/-- C2: `Launch s t` produces exactly the events `Set(-s)`, `Wait(t)`, `Set(0)` in this order,
hence exactly two emissions, of commands `-s` and then `0`; `isLaunchOverride` is true at
both emissions; on return the command is `0` on all outputs, `isLaunchOverride` is false, and
the mode and both thresholds are those at entry. -/
theorem Launch_emits_throw_then_stop (c : Catapult) (s t : ℚ) :
    (Launch s t).events c =
      [Event.set (commanded { c with isLaunchOverride := true } (-s)), Event.wait t,
       Event.set (commanded { c with isLaunchOverride := true } 0)] ∧
    (Launch s t).emitted c =
      [commanded { c with isLaunchOverride := true } (-s),
       commanded { c with isLaunchOverride := true } 0] ∧
    ((Launch s t).emitted c).map (fun e => (e.CatapultSpeed, e.Left1, e.Right1)) =
      [(-s, -s, s), (0, 0, 0)] ∧
    ((Launch s t).emitted c).map (fun e => e.isLaunchOverride) = [true, true] ∧
    (Launch s t).exec c = { commanded c 0 with isLaunchOverride := false } ∧
    ((Launch s t).exec c).CatapultSpeed = 0 ∧
    outputs ((Launch s t).exec c) = (0, 0, 0, 0) ∧
    ((Launch s t).exec c).isLaunchOverride = false ∧
    ((Launch s t).exec c).Mode = c.Mode ∧
    ((Launch s t).exec c).CarryPosition = c.CarryPosition ∧
    ((Launch s t).exec c).StowPosition = c.StowPosition := by
  have hr := Launch_apply s t c
  rw [events_of_apply hr, emitted_of_apply hr, exec_of_apply hr]
  simp [emissions, commanded, outputs]

/-- Witness for C2: `Launch 0.6 0.3` from the constructed state emits `-0.6` and then `0`,
and ends with the override off. -/
theorem Launch_emits_throw_then_stop_witness :
    ((Launch 0.6 0.3).emitted constructed).map (fun e => (e.CatapultSpeed, e.Left1, e.Right1)) =
      [(-0.6, -0.6, 0.6), (0, 0, 0)] ∧
    ((Launch 0.6 0.3).exec constructed).isLaunchOverride = false :=
  ⟨(Launch_emits_throw_then_stop constructed 0.6 0.3).2.2.1,
   (Launch_emits_throw_then_stop constructed 0.6 0.3).2.2.2.2.2.2.2.1⟩

/-- C3: `Launch s t` is its entry part, the wait and its exit part. The entry part leaves the
override on and the command `-s` mirrored; any sequence of `PIDWrite` calls made from there
changes nothing and emits nothing; so a launch with feedback calls in between produces the
same events and ends in the same state as `Launch s t`. -/
theorem feedback_locked_out_during_Launch (c : Catapult) (s t : ℚ) (xs : List ℚ) :
    (Launch s t = do LaunchEntry s; Wait t; LaunchExit) ∧
    (LaunchEntry s).exec c = commanded { c with isLaunchOverride := true } (-s) ∧
    ((LaunchEntry s).exec c).isLaunchOverride = true ∧
    outputs ((LaunchEntry s).exec c) = (-s, -s, s, s) ∧
    ((LaunchEntry s).exec c).CatapultSpeed = -s ∧
    (PIDWrites xs).exec ((LaunchEntry s).exec c) = (LaunchEntry s).exec c ∧
    (PIDWrites xs).emitted ((LaunchEntry s).exec c) = [] ∧
    LaunchExit.exec ((PIDWrites xs).exec ((LaunchEntry s).exec c)) = (Launch s t).exec c ∧
    (do LaunchEntry s; PIDWrites xs; Wait t; LaunchExit : Op Unit).exec c =
      (Launch s t).exec c ∧
    (do LaunchEntry s; Wait t; PIDWrites xs; LaunchExit : Op Unit).exec c =
      (Launch s t).exec c ∧
    (do LaunchEntry s; Wait t; PIDWrites xs; LaunchExit : Op Unit).events c =
      (Launch s t).events c := by
  have he : LaunchEntry s c =
      ((), commanded { c with isLaunchOverride := true } (-s),
        [Event.set (commanded { c with isLaunchOverride := true } (-s))]) := by
    simp [LaunchEntry, Op.modify, Set, commanded, bind]
  have hw := PIDWrites_locked xs (commanded { c with isLaunchOverride := true } (-s)) rfl
  have hx : ∀ e : Catapult, LaunchExit e =
      ((), { commanded e 0 with isLaunchOverride := false }, [Event.set (commanded e 0)]) := by
    intro e
    simp [LaunchExit, Op.modify, Set, commanded, bind]
  have h1 : (do LaunchEntry s; PIDWrites xs; Wait t; LaunchExit : Op Unit) c = Launch s t c := by
    rw [Launch_apply]
    simp only [bind_apply, he, hw, hx, Wait]
    simp [commanded]
  have h2 : (do LaunchEntry s; Wait t; PIDWrites xs; LaunchExit : Op Unit) c = Launch s t c := by
    rw [Launch_apply]
    simp only [bind_apply, he, hw, hx, Wait]
    simp [commanded]
  rw [exec_of_apply h1, exec_of_apply h2, events_of_apply h2, exec_of_apply he]
  rw [exec_of_apply hw, emitted_of_apply hw, exec_of_apply (hx _)]
  rw [exec_of_apply (Launch_apply s t c), events_of_apply (Launch_apply s t c)]
  refine ⟨rfl, rfl, rfl, ?_, rfl, rfl, rfl, ?_, rfl, rfl, rfl⟩
  · simp [outputs, commanded]
  · simp [commanded]

/-- Witness for C3: three feedback values arriving inside `Launch 0.6 0.3` leave the throw
command in place, and the launch ends as it does without them. -/
theorem feedback_locked_out_during_Launch_witness :
    (PIDWrites [0.4, -1, 0.2]).exec ((LaunchEntry 0.6).exec constructed) =
      (LaunchEntry 0.6).exec constructed ∧
    outputs ((LaunchEntry 0.6).exec constructed) = (-0.6, -0.6, 0.6, 0.6) ∧
    LaunchExit.exec ((PIDWrites [0.4, -1, 0.2]).exec ((LaunchEntry 0.6).exec constructed)) =
      (Launch 0.6 0.3).exec constructed :=
  ⟨(feedback_locked_out_during_Launch constructed 0.6 0.3 [0.4, -1, 0.2]).2.2.2.2.2.1,
   (feedback_locked_out_during_Launch constructed 0.6 0.3 [0.4, -1, 0.2]).2.2.2.1,
   (feedback_locked_out_during_Launch constructed 0.6 0.3 [0.4, -1, 0.2]).2.2.2.2.2.2.2.1⟩

/-! ## Manual drive -/

/-- C4: in a mode other than `Manual`, `SetManual x` leaves the whole state unchanged
(outputs, published command, mode, override, thresholds) and emits nothing. -/
theorem SetManual_noop_outside_Manual (c : Catapult) (x : ℚ)
    (h : c.Mode ≠ CatapultModes.Manual) :
    (SetManual x).exec c = c ∧ (SetManual x).emitted c = [] := by
  simp [Op.exec, Op.emitted, Op.events, SetManual_apply, h, emissions]

/-- Witness for C4: `SetManual 0.7` in the constructed state (mode `Idle`). -/
theorem SetManual_noop_outside_Manual_witness :
    (SetManual 0.7).exec constructed = constructed ∧ (SetManual 0.7).emitted constructed = [] :=
  SetManual_noop_outside_Manual constructed 0.7 (by decide)

/-- C5: in mode `Manual`, `SetManual x` makes one emission, of command `x`: both left outputs
are `x`, both right outputs `-x`, the published command `x`; mode, override and thresholds
are unchanged. -/
theorem SetManual_writes_in_Manual (c : Catapult) (x : ℚ)
    (h : c.Mode = CatapultModes.Manual) :
    (SetManual x).exec c = commanded c x ∧
    (SetManual x).emitted c = [commanded c x] ∧
    outputs ((SetManual x).exec c) = (x, x, -x, -x) ∧
    ((SetManual x).exec c).CatapultSpeed = x ∧
    ((SetManual x).exec c).Mode = c.Mode ∧
    ((SetManual x).exec c).isLaunchOverride = c.isLaunchOverride ∧
    ((SetManual x).exec c).CarryPosition = c.CarryPosition ∧
    ((SetManual x).exec c).StowPosition = c.StowPosition := by
  simp [Op.exec, Op.emitted, Op.events, SetManual_apply, h, Set_apply, emissions, commanded,
    outputs]

/-- Witness for C5: `SetManual 0.7` in mode `Manual`. -/
theorem SetManual_writes_in_Manual_witness :
    outputs ((SetManual 0.7).exec { constructed with Mode := CatapultModes.Manual }) =
      (0.7, 0.7, -0.7, -0.7) :=
  (SetManual_writes_in_Manual { constructed with Mode := CatapultModes.Manual } 0.7 rfl).2.2.1

/-! ## Per-cycle evaluation -/

/-- C6: in mode `Pickup`, `ProcessMode` with position reading `p` emits command `-0.1` when
`p < CarryPosition` and command `0` when `CarryPosition ≤ p` (equality included), so the
command is `-0.1` if and only if `p < CarryPosition`; the command and the outputs are the
same from every other `Pickup` state with the same `CarryPosition`, whatever its
`StowPosition` and previous command. -/
theorem ProcessMode_Pickup_hold (c : Catapult) (p : ℚ) (h : c.Mode = CatapultModes.Pickup) :
    (p < c.CarryPosition →
      (ProcessMode p).exec c = commanded c (-0.1) ∧
      (ProcessMode p).emitted c = [commanded c (-0.1)]) ∧
    (c.CarryPosition ≤ p →
      (ProcessMode p).exec c = commanded c 0 ∧ (ProcessMode p).emitted c = [commanded c 0]) ∧
    (((ProcessMode p).exec c).CatapultSpeed = -0.1 ↔ p < c.CarryPosition) ∧
    (((ProcessMode p).exec c).CatapultSpeed = 0 ↔ c.CarryPosition ≤ p) ∧
    (∀ d : Catapult, d.Mode = CatapultModes.Pickup → d.CarryPosition = c.CarryPosition →
      ((ProcessMode p).exec d).CatapultSpeed = ((ProcessMode p).exec c).CatapultSpeed ∧
      outputs ((ProcessMode p).exec d) = outputs ((ProcessMode p).exec c)) := by
  have key : ∀ d : Catapult, d.Mode = CatapultModes.Pickup →
      ProcessMode p d = if p < d.CarryPosition then Set (-0.1) d else Set 0 d := by
    intro d hd
    rw [ProcessMode_apply, hd]
  refine ⟨?_, ?_, ?_, ?_, ?_⟩
  · intro hp
    have hr : ProcessMode p c = Set (-0.1) c := by rw [key c h, if_pos hp]
    rw [exec_of_apply hr, emitted_of_apply hr, Set_apply]
    exact ⟨rfl, rfl⟩
  · intro hp
    have hr : ProcessMode p c = Set 0 c := by rw [key c h, if_neg (not_lt.mpr hp)]
    rw [exec_of_apply hr, emitted_of_apply hr, Set_apply]
    exact ⟨rfl, rfl⟩
  · rw [exec_of_apply (key c h)]
    by_cases hp : p < c.CarryPosition
    · simp [hp, Set_apply, commanded]
    · simp only [if_neg hp, Set_apply, commanded, hp, iff_false]
      norm_num
  · rw [exec_of_apply (key c h)]
    by_cases hp : p < c.CarryPosition
    · simp only [if_pos hp, Set_apply, commanded, not_le.mpr hp, iff_false]
      norm_num
    · simp [hp, Set_apply, commanded, not_lt.mp hp]
  · intro d hd hc
    rw [exec_of_apply (key c h), exec_of_apply (key d hd), hc]
    by_cases hp : p < c.CarryPosition <;> simp [hp, Set_apply, commanded, outputs]

/-- Witness for C6: position 1.5 with `CarryPosition` 2.15 gives command `-0.1`; position
2.15 gives command `0`; another stow position and previous command give the same command. -/
theorem ProcessMode_Pickup_hold_witness :
    ((ProcessMode 1.5).exec { constructed with Mode := CatapultModes.Pickup }).CatapultSpeed =
      -0.1 ∧
    (ProcessMode 2.15).exec { constructed with Mode := CatapultModes.Pickup } =
      commanded { constructed with Mode := CatapultModes.Pickup } 0 ∧
    ((ProcessMode 1.5).exec
        { constructed with Mode := CatapultModes.Pickup, StowPosition := 3, Left1 := 1 }
      ).CatapultSpeed =
      ((ProcessMode 1.5).exec { constructed with Mode := CatapultModes.Pickup }).CatapultSpeed :=
  ⟨(ProcessMode_Pickup_hold { constructed with Mode := CatapultModes.Pickup } 1.5 rfl).2.2.1.mpr
      (by norm_num [constructed]),
   ((ProcessMode_Pickup_hold { constructed with Mode := CatapultModes.Pickup } 2.15 rfl).2.1
      (by norm_num [constructed])).1,
   ((ProcessMode_Pickup_hold { constructed with Mode := CatapultModes.Pickup } 1.5 rfl).2.2.2.2
      { constructed with Mode := CatapultModes.Pickup, StowPosition := 3, Left1 := 1 }
      rfl rfl).1⟩

/-- C7: in mode `Carry`, `ProcessMode` with position reading `p` emits command `0.2` when
`p > StowPosition` and command `0` when `p ≤ StowPosition` (equality included), so the
command is `0.2` if and only if `p > StowPosition`; the command and the outputs are the same
from every other `Carry` state with the same `StowPosition`, whatever its `CarryPosition`
and previous command. -/
theorem ProcessMode_Carry_hold (c : Catapult) (p : ℚ) (h : c.Mode = CatapultModes.Carry) :
    (p > c.StowPosition →
      (ProcessMode p).exec c = commanded c 0.2 ∧
      (ProcessMode p).emitted c = [commanded c 0.2]) ∧
    (p ≤ c.StowPosition →
      (ProcessMode p).exec c = commanded c 0 ∧ (ProcessMode p).emitted c = [commanded c 0]) ∧
    (((ProcessMode p).exec c).CatapultSpeed = 0.2 ↔ p > c.StowPosition) ∧
    (((ProcessMode p).exec c).CatapultSpeed = 0 ↔ p ≤ c.StowPosition) ∧
    (∀ d : Catapult, d.Mode = CatapultModes.Carry → d.StowPosition = c.StowPosition →
      ((ProcessMode p).exec d).CatapultSpeed = ((ProcessMode p).exec c).CatapultSpeed ∧
      outputs ((ProcessMode p).exec d) = outputs ((ProcessMode p).exec c)) := by
  have key : ∀ d : Catapult, d.Mode = CatapultModes.Carry →
      ProcessMode p d = if p > d.StowPosition then Set 0.2 d else Set 0 d := by
    intro d hd
    rw [ProcessMode_apply, hd]
  refine ⟨?_, ?_, ?_, ?_, ?_⟩
  · intro hp
    have hr : ProcessMode p c = Set 0.2 c := by rw [key c h, if_pos hp]
    rw [exec_of_apply hr, emitted_of_apply hr, Set_apply]
    exact ⟨rfl, rfl⟩
  · intro hp
    have hr : ProcessMode p c = Set 0 c := by rw [key c h, if_neg (not_lt.mpr hp)]
    rw [exec_of_apply hr, emitted_of_apply hr, Set_apply]
    exact ⟨rfl, rfl⟩
  · rw [exec_of_apply (key c h)]
    by_cases hp : p > c.StowPosition
    · simp [hp, Set_apply, commanded]
    · simp only [if_neg hp, Set_apply, commanded, hp, iff_false]
      norm_num
  · rw [exec_of_apply (key c h)]
    by_cases hp : p > c.StowPosition
    · simp only [if_pos hp, Set_apply, commanded, not_le.mpr hp, iff_false]
      norm_num
    · simp [hp, Set_apply, commanded, not_lt.mp hp]
  · intro d hd hc
    rw [exec_of_apply (key c h), exec_of_apply (key d hd), hc]
    by_cases hp : p > c.StowPosition <;> simp [hp, Set_apply, commanded, outputs]

/-- Witness for C7: position 2.0 with `StowPosition` 1.9 gives command `0.2`; position 1.9
gives command `0`; another carry position and previous command give the same command. -/
theorem ProcessMode_Carry_hold_witness :
    ((ProcessMode 2.0).exec { constructed with Mode := CatapultModes.Carry }).CatapultSpeed =
      0.2 ∧
    (ProcessMode 1.9).exec { constructed with Mode := CatapultModes.Carry } =
      commanded { constructed with Mode := CatapultModes.Carry } 0 ∧
    ((ProcessMode 2.0).exec
        { constructed with Mode := CatapultModes.Carry, CarryPosition := 3, Left1 := 1 }
      ).CatapultSpeed =
      ((ProcessMode 2.0).exec { constructed with Mode := CatapultModes.Carry }).CatapultSpeed :=
  ⟨(ProcessMode_Carry_hold { constructed with Mode := CatapultModes.Carry } 2.0 rfl).2.2.1.mpr
      (by norm_num [constructed]),
   ((ProcessMode_Carry_hold { constructed with Mode := CatapultModes.Carry } 1.9 rfl).2.1
      (by norm_num [constructed])).1,
   ((ProcessMode_Carry_hold { constructed with Mode := CatapultModes.Carry } 2.0 rfl).2.2.2.2
      { constructed with Mode := CatapultModes.Carry, CarryPosition := 3, Left1 := 1 }
      rfl rfl).1⟩

/-- C8: in mode `Idle`, `ProcessMode` emits command `0` for every position reading, thresholds
and previous command: all four outputs and the published command are `0`. -/
theorem ProcessMode_Idle_stops (c : Catapult) (p : ℚ) (h : c.Mode = CatapultModes.Idle) :
    (ProcessMode p).exec c = commanded c 0 ∧
    (ProcessMode p).emitted c = [commanded c 0] ∧
    outputs ((ProcessMode p).exec c) = (0, 0, 0, 0) ∧
    ((ProcessMode p).exec c).CatapultSpeed = 0 := by
  have hr : ProcessMode p c = Set 0 c := by rw [ProcessMode_apply, h]
  rw [exec_of_apply hr, emitted_of_apply hr, Set_apply]
  refine ⟨rfl, rfl, ?_, rfl⟩
  simp [outputs, commanded]

/-- Witness for C8: an idle controller still carrying command `-0.6` reads position 2. -/
theorem ProcessMode_Idle_stops_witness :
    outputs ((ProcessMode 2).exec (commanded constructed (-0.6))) = (0, 0, 0, 0) :=
  (ProcessMode_Idle_stops (commanded constructed (-0.6)) 2 rfl).2.2.1

/-- C9: in mode `Manual`, `ProcessMode` leaves the whole state unchanged and emits nothing,
for every position reading. -/
theorem ProcessMode_Manual_unchanged (c : Catapult) (p : ℚ)
    (h : c.Mode = CatapultModes.Manual) :
    (ProcessMode p).exec c = c ∧ (ProcessMode p).emitted c = [] := by
  have hr : ProcessMode p c = ((), c, []) := by rw [ProcessMode_apply, h]
  rw [exec_of_apply hr, emitted_of_apply hr]
  exact ⟨rfl, rfl⟩

/-- Witness for C9: the command `0.1` set by the manual path survives `ProcessMode`. -/
theorem ProcessMode_Manual_unchanged_witness :
    (ProcessMode 2).exec (commanded { constructed with Mode := CatapultModes.Manual } 0.1) =
      commanded { constructed with Mode := CatapultModes.Manual } 0.1 :=
  (ProcessMode_Manual_unchanged
    (commanded { constructed with Mode := CatapultModes.Manual } 0.1) 2 rfl).1

/-! ## The override flag -/

/-- C10, as stated, fails: in the state reached inside `Launch 0.6` (override on, command
`-0.6`, mode `Idle`) `ProcessMode` changes the outputs, and once the mode is `Manual` in
that state `SetManual 0.1` changes them too. -/
theorem override_does_not_gate_mode_paths :
    ((LaunchEntry 0.6).exec constructed).isLaunchOverride = true ∧
    outputs ((ProcessMode 2).exec ((LaunchEntry 0.6).exec constructed)) ≠
      outputs ((LaunchEntry 0.6).exec constructed) ∧
    ((SetMode CatapultModes.Manual).exec ((LaunchEntry 0.6).exec constructed)).isLaunchOverride
      = true ∧
    outputs ((SetManual 0.1).exec
        ((SetMode CatapultModes.Manual).exec ((LaunchEntry 0.6).exec constructed))) ≠
      outputs ((SetMode CatapultModes.Manual).exec ((LaunchEntry 0.6).exec constructed)) := by
  have he : (LaunchEntry 0.6).exec constructed =
      commanded { constructed with isLaunchOverride := true } (-0.6) := by
    simp [Op.exec, LaunchEntry, Op.modify, Set, commanded, bind]
  have hm : (SetMode CatapultModes.Manual).exec
      (commanded { constructed with isLaunchOverride := true } (-0.6)) =
      { commanded { constructed with isLaunchOverride := true } (-0.6) with
        Mode := CatapultModes.Manual } := rfl
  have hp : ProcessMode 2 (commanded { constructed with isLaunchOverride := true } (-0.6)) =
      Set 0 (commanded { constructed with isLaunchOverride := true } (-0.6)) := by
    rw [ProcessMode_apply]; rfl
  have hs : SetManual 0.1 { commanded { constructed with isLaunchOverride := true } (-0.6) with
        Mode := CatapultModes.Manual } =
      Set 0.1 { commanded { constructed with isLaunchOverride := true } (-0.6) with
        Mode := CatapultModes.Manual } := by
    rw [SetManual_apply]; rfl
  rw [he, hm, exec_of_apply hp, exec_of_apply hs]
  refine ⟨rfl, ?_, rfl, ?_⟩
  · simp only [outputs, Set_apply, commanded, ne_eq, Prod.mk.injEq, not_and]
    norm_num
  · simp only [outputs, Set_apply, commanded, ne_eq, Prod.mk.injEq, not_and]
    norm_num

/-- C10, amended: when `isLaunchOverride` is true, `PIDWrite` leaves the actuator outputs
unchanged and emits nothing in every mode; `SetManual` does so in every mode other than
`Manual`, and `ProcessMode` does so in mode `Manual`. The flag is tested by `PIDWrite` only:
`SetManual x` in mode `Manual` emits `x`, and `ProcessMode` emits 0 in mode `Idle`, `-0.1` or
0 in mode `Pickup` and `0.2` or 0 in mode `Carry`, chosen by the reading as with the flag
off; in every mode `SetManual` and `ProcessMode` end in the state, and emit the commands and
outputs, that they produce from the same state with the flag off, the flag apart. -/
theorem override_gates_PIDWrite_only (c : Catapult) (x p : ℚ)
    (h : c.isLaunchOverride = true) :
    (outputs ((PIDWrite x).exec c) = outputs c ∧ (PIDWrite x).emitted c = []) ∧
    (c.Mode ≠ CatapultModes.Manual →
      outputs ((SetManual x).exec c) = outputs c ∧ (SetManual x).emitted c = []) ∧
    (c.Mode = CatapultModes.Manual →
      outputs ((ProcessMode p).exec c) = outputs c ∧ (ProcessMode p).emitted c = []) ∧
    (c.Mode = CatapultModes.Manual →
      (SetManual x).exec c = commanded c x ∧ (SetManual x).emitted c = [commanded c x]) ∧
    (c.Mode = CatapultModes.Idle →
      (ProcessMode p).exec c = commanded c 0 ∧ (ProcessMode p).emitted c = [commanded c 0]) ∧
    (c.Mode = CatapultModes.Pickup →
      (p < c.CarryPosition →
        (ProcessMode p).exec c = commanded c (-0.1) ∧
        (ProcessMode p).emitted c = [commanded c (-0.1)]) ∧
      (c.CarryPosition ≤ p →
        (ProcessMode p).exec c = commanded c 0 ∧
        (ProcessMode p).emitted c = [commanded c 0])) ∧
    (c.Mode = CatapultModes.Carry →
      (p > c.StowPosition →
        (ProcessMode p).exec c = commanded c 0.2 ∧
        (ProcessMode p).emitted c = [commanded c 0.2]) ∧
      (p ≤ c.StowPosition →
        (ProcessMode p).exec c = commanded c 0 ∧
        (ProcessMode p).emitted c = [commanded c 0])) ∧
    ((SetManual x).exec c =
        { (SetManual x).exec { c with isLaunchOverride := false } with
          isLaunchOverride := true } ∧
      ((SetManual x).emitted c).map (fun e => (e.CatapultSpeed, outputs e)) =
        ((SetManual x).emitted { c with isLaunchOverride := false }).map
          (fun e => (e.CatapultSpeed, outputs e))) ∧
    ((ProcessMode p).exec c =
        { (ProcessMode p).exec { c with isLaunchOverride := false } with
          isLaunchOverride := true } ∧
      ((ProcessMode p).emitted c).map (fun e => (e.CatapultSpeed, outputs e)) =
        ((ProcessMode p).emitted { c with isLaunchOverride := false }).map
          (fun e => (e.CatapultSpeed, outputs e))) := by
  have hflag : ∀ v : ℚ,
      commanded c v = { commanded { c with isLaunchOverride := false } v with
        isLaunchOverride := true } := by
    intro v
    cases c
    simp only at h
    subst h
    rfl
  have hself : c = { ({ c with isLaunchOverride := false } : Catapult) with
      isLaunchOverride := true } := by
    cases c
    simp only at h
    subst h
    rfl
  have hsetE : ∀ (d : Catapult) (v : ℚ), (Set v d).2.1 = commanded d v := fun _ _ => rfl
  have hsetM : ∀ (d : Catapult) (v : ℚ),
      (emissions (Set v d).2.2).map (fun e => (e.CatapultSpeed, outputs e)) =
        [(v, (v, v, -v, -v))] := fun _ _ => rfl
  have hnilM : ∀ d : Catapult,
      (emissions (((), d, []) : Unit × Catapult × List Event).2.2).map
        (fun e => (e.CatapultSpeed, outputs e)) = [] := fun _ => rfl
  refine ⟨?_, ?_, ?_, ?_, ?_, ?_, ?_, ?_, ?_⟩
  · have hr : PIDWrite x c = ((), c, []) := by rw [PIDWrite_apply, if_pos h]
    rw [exec_of_apply hr, emitted_of_apply hr]
    exact ⟨rfl, rfl⟩
  · intro hm
    have hr : SetManual x c = ((), c, []) := by rw [SetManual_apply, if_neg hm]
    rw [exec_of_apply hr, emitted_of_apply hr]
    exact ⟨rfl, rfl⟩
  · intro hm
    have hr : ProcessMode p c = ((), c, []) := by rw [ProcessMode_apply, hm]
    rw [exec_of_apply hr, emitted_of_apply hr]
    exact ⟨rfl, rfl⟩
  · intro hm
    have hr : SetManual x c = Set x c := by rw [SetManual_apply, if_pos hm]
    rw [exec_of_apply hr, emitted_of_apply hr, Set_apply]
    exact ⟨rfl, rfl⟩
  · intro hm
    have hr : ProcessMode p c = Set 0 c := by rw [ProcessMode_apply, hm]
    rw [exec_of_apply hr, emitted_of_apply hr, Set_apply]
    exact ⟨rfl, rfl⟩
  · intro hm
    constructor
    · intro hp
      have hr : ProcessMode p c = Set (-0.1) c := by
        rw [ProcessMode_apply, hm]; exact if_pos hp
      rw [exec_of_apply hr, emitted_of_apply hr, Set_apply]
      exact ⟨rfl, rfl⟩
    · intro hp
      have hr : ProcessMode p c = Set 0 c := by
        rw [ProcessMode_apply, hm]; exact if_neg (not_lt.mpr hp)
      rw [exec_of_apply hr, emitted_of_apply hr, Set_apply]
      exact ⟨rfl, rfl⟩
  · intro hm
    constructor
    · intro hp
      have hr : ProcessMode p c = Set 0.2 c := by
        rw [ProcessMode_apply, hm]; exact if_pos hp
      rw [exec_of_apply hr, emitted_of_apply hr, Set_apply]
      exact ⟨rfl, rfl⟩
    · intro hp
      have hr : ProcessMode p c = Set 0 c := by
        rw [ProcessMode_apply, hm]; exact if_neg (not_lt.mpr hp)
      rw [exec_of_apply hr, emitted_of_apply hr, Set_apply]
      exact ⟨rfl, rfl⟩
  · rw [exec_of_apply (SetManual_apply x c), emitted_of_apply (SetManual_apply x c),
      exec_of_apply (SetManual_apply x { c with isLaunchOverride := false }),
      emitted_of_apply (SetManual_apply x { c with isLaunchOverride := false })]
    have e1 : ({ c with isLaunchOverride := false } : Catapult).Mode = c.Mode := rfl
    rw [e1]
    by_cases hm : c.Mode = CatapultModes.Manual
    · rw [if_pos hm, if_pos hm, hsetE, hsetE, hsetM, hsetM]
      exact ⟨hflag x, rfl⟩
    · rw [if_neg hm, if_neg hm]
      exact ⟨hself, rfl⟩
  · have fin : ∀ v : ℚ, ProcessMode p c = Set v c →
        ProcessMode p { c with isLaunchOverride := false } =
          Set v { c with isLaunchOverride := false } →
        (ProcessMode p).exec c =
          { (ProcessMode p).exec { c with isLaunchOverride := false } with
            isLaunchOverride := true } ∧
        ((ProcessMode p).emitted c).map (fun e => (e.CatapultSpeed, outputs e)) =
          ((ProcessMode p).emitted { c with isLaunchOverride := false }).map
            (fun e => (e.CatapultSpeed, outputs e)) := by
      intro v r1 r0
      rw [exec_of_apply r1, emitted_of_apply r1, exec_of_apply r0, emitted_of_apply r0,
        hsetE, hsetE, hsetM, hsetM]
      exact ⟨hflag v, rfl⟩
    have hm4 : c.Mode = CatapultModes.Idle ∨ c.Mode = CatapultModes.Manual ∨
        c.Mode = CatapultModes.Pickup ∨ c.Mode = CatapultModes.Carry := by
      cases c.Mode <;> simp
    rcases hm4 with hm | hm | hm | hm
    · have hm0 : ({ c with isLaunchOverride := false } : Catapult).Mode =
          CatapultModes.Idle := hm
      exact fin 0 (by rw [ProcessMode_apply, hm]) (by rw [ProcessMode_apply, hm0])
    · have hm0 : ({ c with isLaunchOverride := false } : Catapult).Mode =
          CatapultModes.Manual := hm
      have r1 : ProcessMode p c = ((), c, []) := by rw [ProcessMode_apply, hm]
      have r0 : ProcessMode p { c with isLaunchOverride := false } =
          ((), { c with isLaunchOverride := false }, []) := by rw [ProcessMode_apply, hm0]
      rw [exec_of_apply r1, emitted_of_apply r1, exec_of_apply r0, emitted_of_apply r0]
      exact ⟨hself, rfl⟩
    · have hm0 : ({ c with isLaunchOverride := false } : Catapult).Mode =
          CatapultModes.Pickup := hm
      by_cases hp : p < c.CarryPosition
      · exact fin (-0.1) (by rw [ProcessMode_apply, hm]; exact if_pos hp)
          (by rw [ProcessMode_apply, hm0]; exact if_pos hp)
      · exact fin 0 (by rw [ProcessMode_apply, hm]; exact if_neg hp)
          (by rw [ProcessMode_apply, hm0]; exact if_neg hp)
    · have hm0 : ({ c with isLaunchOverride := false } : Catapult).Mode =
          CatapultModes.Carry := hm
      by_cases hp : p > c.StowPosition
      · exact fin 0.2 (by rw [ProcessMode_apply, hm]; exact if_pos hp)
          (by rw [ProcessMode_apply, hm0]; exact if_pos hp)
      · exact fin 0 (by rw [ProcessMode_apply, hm]; exact if_neg hp)
          (by rw [ProcessMode_apply, hm0]; exact if_neg hp)

/-- Witness for C10 amended: inside `Launch 0.6` (override on, mode `Idle`) `PIDWrite 0.4` and
`SetManual 0.1` leave the outputs alone while `ProcessMode` emits the stop command; with the
mode set to `Manual` there, `ProcessMode` emits nothing while `SetManual 0.1` emits `0.1`; in
mode `Pickup` there, the reading 1.5 gives the hold `-0.1`. -/
theorem override_gates_PIDWrite_only_witness :
    outputs ((PIDWrite 0.4).exec (commanded { constructed with isLaunchOverride := true } (-0.6)))
      = outputs (commanded { constructed with isLaunchOverride := true } (-0.6)) ∧
    outputs ((SetManual 0.1).exec
        (commanded { constructed with isLaunchOverride := true } (-0.6)))
      = outputs (commanded { constructed with isLaunchOverride := true } (-0.6)) ∧
    (ProcessMode 2).emitted (commanded { constructed with isLaunchOverride := true } (-0.6)) =
      [commanded (commanded { constructed with isLaunchOverride := true } (-0.6)) 0] ∧
    (ProcessMode 2).emitted
        (commanded { constructed with isLaunchOverride := true, Mode := CatapultModes.Manual }
          (-0.6)) = [] ∧
    (SetManual 0.1).emitted
        (commanded { constructed with isLaunchOverride := true, Mode := CatapultModes.Manual }
          (-0.6)) =
      [commanded
        (commanded { constructed with isLaunchOverride := true, Mode := CatapultModes.Manual }
          (-0.6)) 0.1] ∧
    (ProcessMode 1.5).exec
        (commanded { constructed with isLaunchOverride := true, Mode := CatapultModes.Pickup }
          (-0.6)) =
      commanded
        (commanded { constructed with isLaunchOverride := true, Mode := CatapultModes.Pickup }
          (-0.6)) (-0.1) :=
  ⟨(override_gates_PIDWrite_only
      (commanded { constructed with isLaunchOverride := true } (-0.6)) 0.4 2 rfl).1.1,
   ((override_gates_PIDWrite_only
      (commanded { constructed with isLaunchOverride := true } (-0.6)) 0.1 2 rfl).2.1
      (by decide)).1,
   ((override_gates_PIDWrite_only
      (commanded { constructed with isLaunchOverride := true } (-0.6)) 0.1 2 rfl).2.2.2.2.1
      rfl).2,
   ((override_gates_PIDWrite_only
      (commanded { constructed with isLaunchOverride := true, Mode := CatapultModes.Manual }
        (-0.6)) 0.1 2 rfl).2.2.1 rfl).2,
   ((override_gates_PIDWrite_only
      (commanded { constructed with isLaunchOverride := true, Mode := CatapultModes.Manual }
        (-0.6)) 0.1 2 rfl).2.2.2.1 rfl).2,
   (((override_gates_PIDWrite_only
      (commanded { constructed with isLaunchOverride := true, Mode := CatapultModes.Pickup }
        (-0.6)) 0.1 1.5 rfl).2.2.2.2.2.1 rfl).1 (by norm_num [constructed, commanded])).1⟩

/-! ## Emission through `Set` -/

/-- C11: `Set v` publishes `v` and writes `v` to both left outputs and `-v` to both right
outputs. Every call of `SetManual`, `Launch`, `PIDWrite`, `ProcessMode` (and of `SetMode` and
the reload) writes the actuator only through `Set`: each of its emissions is mirrored, with
no emission the outputs and the published command are unchanged, and otherwise they are
those of its last emission. Hence every state reached from the constructed state by a
sequence of calls is mirrored: left outputs equal, right outputs equal, right the negation
of left, published command equal to the left output. -/
theorem mirrored_emission_invariant (ks : List Call) (k : Call) (c : Catapult) (v : ℚ) :
    ((Set v).exec c = commanded c v ∧ (Set v).emitted c = [commanded c v] ∧
      ((Set v).exec c).CatapultSpeed = v ∧ outputs ((Set v).exec c) = (v, v, -v, -v)) ∧
    (∀ e ∈ (perform k).emitted c, Mirrored e) ∧
    ((perform k).emitted c = [] →
      outputs ((perform k).exec c) = outputs c ∧
      ((perform k).exec c).CatapultSpeed = c.CatapultSpeed) ∧
    (∀ e, ((perform k).emitted c).getLast? = some e →
      outputs ((perform k).exec c) = outputs e ∧
      ((perform k).exec c).CatapultSpeed = e.CatapultSpeed) ∧
    outputs constructed = (0, 0, 0, 0) ∧
    Mirrored ((performAll ks).exec constructed) := by
  refine ⟨⟨rfl, rfl, rfl, rfl⟩, ?_, ?_, ?_, rfl, ?_⟩
  · rcases perform_shape k c with ⟨d, hd, _⟩ | ⟨w, hw, _⟩ | ⟨s, t, _, hl⟩
    · rw [emitted_of_apply hd]
      simp [emissions]
    · rw [emitted_of_apply hw, Set_apply]
      simp [emissions, Mirrored_commanded]
    · rw [emitted_of_apply hl, Launch_apply]
      simp [emissions, Mirrored_commanded]
  · rcases perform_shape k c with ⟨d, hd, ho, hs, _⟩ | ⟨w, hw, _⟩ | ⟨s, t, _, hl⟩
    · rw [exec_of_apply hd]
      intro _
      exact ⟨ho, hs⟩
    · rw [emitted_of_apply hw, Set_apply]
      simp [emissions]
    · rw [emitted_of_apply hl, Launch_apply]
      simp [emissions]
  · rcases perform_shape k c with ⟨d, hd, _⟩ | ⟨w, hw, _⟩ | ⟨s, t, _, hl⟩
    · rw [emitted_of_apply hd]
      simp [emissions]
    · rw [emitted_of_apply hw, exec_of_apply hw, Set_apply]
      intro e he
      simp only [emissions, List.getLast?_singleton, Option.some.injEq] at he
      subst he
      exact ⟨rfl, rfl⟩
    · rw [emitted_of_apply hl, exec_of_apply hl, Launch_apply]
      intro e he
      simp only [emissions, List.getLast?_cons_cons, List.getLast?_singleton,
        Option.some.injEq] at he
      subst he
      exact ⟨rfl, rfl⟩
  · exact performAll_exec_invariant Mirrored perform_preserves_Mirrored ks constructed
      (by simp [Mirrored, constructed])

/-- Witness for C11: a manual drive, a feedback write, a launch and a carry hold in a row. -/
theorem mirrored_emission_invariant_witness :
    Mirrored ((performAll [Call.setMode CatapultModes.Manual, Call.setManual 0.7,
      Call.pidWrite 0.4, Call.launch 0.6 0.3, Call.setMode CatapultModes.Carry,
      Call.processMode 2]).exec constructed) ∧
    outputs ((perform (Call.setMode CatapultModes.Pickup)).exec (commanded constructed 0.7)) =
      outputs (commanded constructed 0.7) :=
  ⟨(mirrored_emission_invariant [Call.setMode CatapultModes.Manual, Call.setManual 0.7,
      Call.pidWrite 0.4, Call.launch 0.6 0.3, Call.setMode CatapultModes.Carry,
      Call.processMode 2] (Call.setMode CatapultModes.Pickup) constructed 0).2.2.2.2.2,
   ((mirrored_emission_invariant [] (Call.setMode CatapultModes.Pickup)
      (commanded constructed 0.7) 0).2.2.1 rfl).1⟩


/-! ## Mode and thresholds -/

/-- C12: `SetMode m` assigns the mode and does nothing else: from every state, whatever its
mode and override flag, the new mode is `m`, the outputs, published command, override flag
and thresholds are unchanged, and nothing is emitted; calling it twice in a row gives the
same state as calling it once. -/
theorem SetMode_unguarded_assignment (c : Catapult) (m : CatapultModes) :
    (SetMode m).exec c = { c with Mode := m } ∧
    ((SetMode m).exec c).Mode = m ∧
    outputs ((SetMode m).exec c) = outputs c ∧
    ((SetMode m).exec c).CatapultSpeed = c.CatapultSpeed ∧
    ((SetMode m).exec c).isLaunchOverride = c.isLaunchOverride ∧
    ((SetMode m).exec c).CarryPosition = c.CarryPosition ∧
    ((SetMode m).exec c).StowPosition = c.StowPosition ∧
    (SetMode m).events c = [] ∧
    (SetMode m).exec ((SetMode m).exec c) = (SetMode m).exec c ∧
    (do SetMode m; SetMode m : Op Unit).exec c = (SetMode m).exec c ∧
    (do SetMode m; SetMode m : Op Unit).events c = (SetMode m).events c :=
  ⟨rfl, rfl, rfl, rfl, rfl, rfl, rfl, rfl, rfl, rfl, rfl⟩

/-- C13: `SetManual`, `PIDWrite`, `ProcessMode`, `Launch` and the reload
`InitializeVariablesFromParams` leave `Mode` unchanged; `SetManual`, `PIDWrite`,
`ProcessMode`, `Launch` and `SetMode` leave `CarryPosition` and `StowPosition` unchanged. So
over any sequence of calls the mode changes only at a `SetMode` and the thresholds only at a
reload. -/
theorem Mode_and_thresholds_single_writer (c : Catapult) (x s t p : ℚ) (m : CatapultModes)
    (prefs : Preferences) (k : Call) :
    (((SetManual x).exec c).Mode = c.Mode ∧ ((PIDWrite x).exec c).Mode = c.Mode ∧
      ((ProcessMode p).exec c).Mode = c.Mode ∧ ((Launch s t).exec c).Mode = c.Mode ∧
      ((InitializeVariablesFromParams prefs).exec c).Mode = c.Mode) ∧
    (((SetManual x).exec c).CarryPosition = c.CarryPosition ∧
      ((SetManual x).exec c).StowPosition = c.StowPosition ∧
      ((PIDWrite x).exec c).CarryPosition = c.CarryPosition ∧
      ((PIDWrite x).exec c).StowPosition = c.StowPosition ∧
      ((ProcessMode p).exec c).CarryPosition = c.CarryPosition ∧
      ((ProcessMode p).exec c).StowPosition = c.StowPosition ∧
      ((Launch s t).exec c).CarryPosition = c.CarryPosition ∧
      ((Launch s t).exec c).StowPosition = c.StowPosition ∧
      ((SetMode m).exec c).CarryPosition = c.CarryPosition ∧
      ((SetMode m).exec c).StowPosition = c.StowPosition) ∧
    ((∀ n, k ≠ Call.setMode n) → ((perform k).exec c).Mode = c.Mode) ∧
    ((∀ q, k ≠ Call.reload q) →
      ((perform k).exec c).CarryPosition = c.CarryPosition ∧
      ((perform k).exec c).StowPosition = c.StowPosition) := by
  have hset : ∀ (v : ℚ), (Set v c).2.1.Mode = c.Mode ∧
      (Set v c).2.1.CarryPosition = c.CarryPosition ∧
      (Set v c).2.1.StowPosition = c.StowPosition := fun v => ⟨rfl, rfl, rfl⟩
  have hM : ∀ y, (SetManual y).exec c = c ∨ (SetManual y).exec c = (Set y c).2.1 := by
    intro y
    rw [exec_of_apply (SetManual_apply y c)]
    by_cases h : c.Mode = CatapultModes.Manual <;> simp [h]
  have hW : ∀ y, (PIDWrite y).exec c = c ∨ (PIDWrite y).exec c = (Set (-y) c).2.1 := by
    intro y
    rw [exec_of_apply (PIDWrite_apply y c)]
    by_cases h : c.isLaunchOverride = true <;> simp [h]
  have hP : ∀ q, (ProcessMode q).exec c = c ∨ ∃ v, (ProcessMode q).exec c = (Set v c).2.1 := by
    intro q
    rw [exec_of_apply (ProcessMode_apply q c)]
    cases hm : c.Mode with
    | Idle => exact Or.inr ⟨0, rfl⟩
    | Manual => exact Or.inl rfl
    | Pickup =>
      by_cases hp : q < c.CarryPosition
      · exact Or.inr ⟨-0.1, by simp [hp]⟩
      · exact Or.inr ⟨0, by simp [hp]⟩
    | Carry =>
      by_cases hp : q > c.StowPosition
      · exact Or.inr ⟨0.2, by simp [hp]⟩
      · exact Or.inr ⟨0, by simp [hp]⟩
  have hL : ∀ a b, (Launch a b).exec c = { commanded c 0 with isLaunchOverride := false } :=
    fun a b => exec_of_apply (Launch_apply a b c)
  have kM : ∀ y, ((SetManual y).exec c).Mode = c.Mode ∧
      ((SetManual y).exec c).CarryPosition = c.CarryPosition ∧
      ((SetManual y).exec c).StowPosition = c.StowPosition := by
    intro y
    rcases hM y with h | h <;> rw [h]
    · exact ⟨rfl, rfl, rfl⟩
    · exact hset y
  have kW : ∀ y, ((PIDWrite y).exec c).Mode = c.Mode ∧
      ((PIDWrite y).exec c).CarryPosition = c.CarryPosition ∧
      ((PIDWrite y).exec c).StowPosition = c.StowPosition := by
    intro y
    rcases hW y with h | h <;> rw [h]
    · exact ⟨rfl, rfl, rfl⟩
    · exact hset (-y)
  have kP : ∀ q, ((ProcessMode q).exec c).Mode = c.Mode ∧
      ((ProcessMode q).exec c).CarryPosition = c.CarryPosition ∧
      ((ProcessMode q).exec c).StowPosition = c.StowPosition := by
    intro q
    rcases hP q with h | ⟨v, h⟩ <;> rw [h]
    · exact ⟨rfl, rfl, rfl⟩
    · exact hset v
  have kL : ∀ a b, ((Launch a b).exec c).Mode = c.Mode ∧
      ((Launch a b).exec c).CarryPosition = c.CarryPosition ∧
      ((Launch a b).exec c).StowPosition = c.StowPosition := by
    intro a b
    rw [hL a b]
    exact ⟨rfl, rfl, rfl⟩
  refine ⟨⟨(kM x).1, (kW x).1, (kP p).1, (kL s t).1, rfl⟩,
    ⟨(kM x).2.1, (kM x).2.2, (kW x).2.1, (kW x).2.2, (kP p).2.1, (kP p).2.2,
      (kL s t).2.1, (kL s t).2.2, rfl, rfl⟩, ?_, ?_⟩
  · intro hk
    cases k with
    | setManual y => exact (kM y).1
    | launch a b => exact (kL a b).1
    | pidWrite y => exact (kW y).1
    | setMode n => exact absurd rfl (hk n)
    | processMode q => exact (kP q).1
    | reload q => rfl
  · intro hk
    cases k with
    | setManual y => exact (kM y).2
    | launch a b => exact (kL a b).2
    | pidWrite y => exact (kW y).2
    | setMode n => exact ⟨rfl, rfl⟩
    | processMode q => exact (kP q).2
    | reload q => exact absurd rfl (hk q)

/-- Witness for C13: a launch from a `Carry` state keeps the mode and the thresholds. -/
theorem Mode_and_thresholds_single_writer_witness :
    ((perform (Call.launch 0.6 0.3)).exec { constructed with Mode := CatapultModes.Carry }).Mode
      = CatapultModes.Carry ∧
    ((perform (Call.launch 0.6 0.3)).exec
      { constructed with Mode := CatapultModes.Carry }).CarryPosition = 2.15 :=
  ⟨(Mode_and_thresholds_single_writer { constructed with Mode := CatapultModes.Carry }
      0 0 0 0 CatapultModes.Idle (fun _ => none) (Call.launch 0.6 0.3)).2.2.1
      (by intro n; simp),
   ((Mode_and_thresholds_single_writer { constructed with Mode := CatapultModes.Carry }
      0 0 0 0 CatapultModes.Idle (fun _ => none) (Call.launch 0.6 0.3)).2.2.2
      (by intro q; simp)).1⟩


/-- C14: the reload sets `CarryPosition` to the stored value of `"CarryPosition"` when the
store has one and to 2.15 otherwise, `StowPosition` to the stored value of `"StowPosition"`
or 1.9, and `LaunchTime` to the stored value of `"LaunchTime"` or 0.3. With an empty store
the reloaded values are the constructor defaults 2.15, 1.9 and 0.3. The reload emits nothing
and changes neither the mode, the override flag, the outputs nor the published command. -/
theorem reload_falls_back_to_defaults (prefs : Preferences) (r : RobotDemo) (v : ℚ) :
    ((prefs "CarryPosition" = some v →
        (RobotDemo.InitializeVariablesFromParams prefs r).Thrower.CarryPosition = v) ∧
      (prefs "CarryPosition" = none →
        (RobotDemo.InitializeVariablesFromParams prefs r).Thrower.CarryPosition = 2.15)) ∧
    ((prefs "StowPosition" = some v →
        (RobotDemo.InitializeVariablesFromParams prefs r).Thrower.StowPosition = v) ∧
      (prefs "StowPosition" = none →
        (RobotDemo.InitializeVariablesFromParams prefs r).Thrower.StowPosition = 1.9)) ∧
    ((prefs "LaunchTime" = some v →
        (RobotDemo.InitializeVariablesFromParams prefs r).LaunchTime = v) ∧
      (prefs "LaunchTime" = none →
        (RobotDemo.InitializeVariablesFromParams prefs r).LaunchTime = 0.3)) ∧
    ((RobotDemo.InitializeVariablesFromParams (fun _ => none) r).Thrower.CarryPosition =
        constructed.CarryPosition ∧
      (RobotDemo.InitializeVariablesFromParams (fun _ => none) r).Thrower.StowPosition =
        constructed.StowPosition ∧
      (RobotDemo.InitializeVariablesFromParams (fun _ => none) r).LaunchTime =
        RobotDemo.initialised.LaunchTime ∧
      constructed.CarryPosition = 2.15 ∧ constructed.StowPosition = 1.9 ∧
      RobotDemo.initialised.LaunchTime = 0.3) ∧
    ((RobotDemo.InitializeVariablesFromParams prefs r).Thrower =
        (InitializeVariablesFromParams prefs).exec r.Thrower ∧
      (InitializeVariablesFromParams prefs).events r.Thrower = [] ∧
      (RobotDemo.InitializeVariablesFromParams prefs r).Thrower.Mode = r.Thrower.Mode ∧
      (RobotDemo.InitializeVariablesFromParams prefs r).Thrower.isLaunchOverride =
        r.Thrower.isLaunchOverride ∧
      outputs (RobotDemo.InitializeVariablesFromParams prefs r).Thrower = outputs r.Thrower ∧
      (RobotDemo.InitializeVariablesFromParams prefs r).Thrower.CatapultSpeed =
        r.Thrower.CatapultSpeed) := by
  have hc : (RobotDemo.InitializeVariablesFromParams prefs r).Thrower.CarryPosition =
      GetFloat prefs "CarryPosition" 2.15 := rfl
  have hs : (RobotDemo.InitializeVariablesFromParams prefs r).Thrower.StowPosition =
      GetFloat prefs "StowPosition" 1.9 := rfl
  have ht : (RobotDemo.InitializeVariablesFromParams prefs r).LaunchTime =
      GetFloat prefs "LaunchTime" 0.3 := rfl
  refine ⟨⟨?_, ?_⟩, ⟨?_, ?_⟩, ⟨?_, ?_⟩, ⟨rfl, rfl, rfl, rfl, rfl, rfl⟩,
    ⟨rfl, rfl, rfl, rfl, rfl, rfl⟩⟩
  · intro h; rw [hc]; simp [GetFloat, h]
  · intro h; rw [hc]; simp [GetFloat, h]
  · intro h; rw [hs]; simp [GetFloat, h]
  · intro h; rw [hs]; simp [GetFloat, h]
  · intro h; rw [ht]; simp [GetFloat, h]
  · intro h; rw [ht]; simp [GetFloat, h]

/-- Witness for C14: a store holding only `"StowPosition"` = 1.7 gives thresholds 2.15 and
1.7 and launch time 0.3. -/
theorem reload_falls_back_to_defaults_witness :
    (RobotDemo.InitializeVariablesFromParams
        (fun key => if key = "StowPosition" then some 1.7 else none)
        RobotDemo.initialised).Thrower.CarryPosition = 2.15 ∧
    (RobotDemo.InitializeVariablesFromParams
        (fun key => if key = "StowPosition" then some 1.7 else none)
        RobotDemo.initialised).Thrower.StowPosition = 1.7 ∧
    (RobotDemo.InitializeVariablesFromParams
        (fun key => if key = "StowPosition" then some 1.7 else none)
        RobotDemo.initialised).LaunchTime = 0.3 :=
  ⟨(reload_falls_back_to_defaults (fun key => if key = "StowPosition" then some 1.7 else none)
      RobotDemo.initialised 1.7).1.2 (by decide),
   (reload_falls_back_to_defaults (fun key => if key = "StowPosition" then some 1.7 else none)
      RobotDemo.initialised 1.7).2.1.1 (if_pos rfl),
   (reload_falls_back_to_defaults (fun key => if key = "StowPosition" then some 1.7 else none)
      RobotDemo.initialised 1.7).2.2.1.2 (by decide)⟩


/-! ## Command range and the override flag over sequences of calls -/

/-- C15, as stated, fails: the controller forwards its argument without clamping, so
`SetManual 5` in mode `Manual` emits 5, `PIDWrite 2` emits -2 and `Launch 3 0.3` emits -3,
all outside the range from -1 to 1. -/
theorem commands_are_not_clamped :
    ((SetManual 5).emitted { constructed with Mode := CatapultModes.Manual }).map
        (fun e => e.CatapultSpeed) = [5] ∧
    ((PIDWrite 2).emitted constructed).map (fun e => e.CatapultSpeed) = [-2] ∧
    ((Launch 3 0.3).emitted constructed).map (fun e => e.CatapultSpeed) = [-3, 0] ∧
    ¬ ((5 : ℚ) ≤ 1) ∧ ¬ (-1 ≤ (-2 : ℚ)) ∧ ¬ (-1 ≤ (-3 : ℚ)) := by
  have h1 : SetManual 5 { constructed with Mode := CatapultModes.Manual } =
      Set 5 { constructed with Mode := CatapultModes.Manual } := by
    rw [SetManual_apply]; rfl
  have h2 : PIDWrite 2 constructed = Set (-2) constructed := by
    rw [PIDWrite_apply]; rfl
  rw [emitted_of_apply h1, emitted_of_apply h2, emitted_of_apply (Launch_apply 3 0.3 constructed)]
  refine ⟨rfl, rfl, rfl, ?_, ?_, ?_⟩ <;> norm_num

/-- C15, amended: for every state and every argument `x` with `-1 ≤ x ≤ 1`, each command
emitted by `SetManual x` is `x`, each command emitted by `PIDWrite x` is `-x`, each command
emitted by `Launch x t` is `-x` or 0, and all of them lie between -1 and 1; each command
emitted by `ProcessMode` is 0, -0.1 or 0.2 and lies between -1 and 1 for every reading. -/
theorem emitted_commands_in_range (c : Catapult) (x t p : ℚ) (hx : -1 ≤ x ∧ x ≤ 1) :
    (∀ e ∈ (SetManual x).emitted c,
      e.CatapultSpeed = x ∧ -1 ≤ e.CatapultSpeed ∧ e.CatapultSpeed ≤ 1) ∧
    (∀ e ∈ (PIDWrite x).emitted c,
      e.CatapultSpeed = -x ∧ -1 ≤ e.CatapultSpeed ∧ e.CatapultSpeed ≤ 1) ∧
    (∀ e ∈ (Launch x t).emitted c,
      (e.CatapultSpeed = -x ∨ e.CatapultSpeed = 0) ∧
      -1 ≤ e.CatapultSpeed ∧ e.CatapultSpeed ≤ 1) ∧
    (∀ e ∈ (ProcessMode p).emitted c,
      (e.CatapultSpeed = 0 ∨ e.CatapultSpeed = -0.1 ∨ e.CatapultSpeed = 0.2) ∧
      -1 ≤ e.CatapultSpeed ∧ e.CatapultSpeed ≤ 1) := by
  obtain ⟨hlo, hhi⟩ := hx
  refine ⟨?_, ?_, ?_, ?_⟩
  · rw [emitted_of_apply (SetManual_apply x c)]
    by_cases h : c.Mode = CatapultModes.Manual
    · simp [h, Set_apply, emissions, commanded, hlo, hhi]
    · simp [h, emissions]
  · rw [emitted_of_apply (PIDWrite_apply x c)]
    by_cases h : c.isLaunchOverride = true
    · simp [h, emissions]
    · simp only [h, if_false, Set_apply, emissions, commanded, List.mem_singleton]
      intro e he
      subst he
      exact ⟨rfl, by show -1 ≤ -x; linarith, by show -x ≤ 1; linarith⟩
  · rw [emitted_of_apply (Launch_apply x t c)]
    simp only [emissions, commanded, List.mem_cons, List.mem_singleton, List.not_mem_nil,
      or_false]
    intro e he
    rcases he with he | he <;> subst he
    · exact ⟨Or.inl rfl, by show -1 ≤ -x; linarith, by show -x ≤ 1; linarith⟩
    · exact ⟨Or.inr rfl, by norm_num, by norm_num⟩
  · rw [emitted_of_apply (ProcessMode_apply p c)]
    have h0 : ∀ e ∈ emissions (Set 0 c).2.2,
        (e.CatapultSpeed = 0 ∨ e.CatapultSpeed = -0.1 ∨ e.CatapultSpeed = 0.2) ∧
        -1 ≤ e.CatapultSpeed ∧ e.CatapultSpeed ≤ 1 := by
      intro e he
      simp only [Set_apply, emissions, List.mem_singleton] at he
      subst he
      exact ⟨Or.inl rfl, by show (-1 : ℚ) ≤ 0; norm_num, by show (0 : ℚ) ≤ 1; norm_num⟩
    cases hm : c.Mode with
    | Idle => exact h0
    | Manual => simp [emissions]
    | Pickup =>
      by_cases hp : p < c.CarryPosition
      · simp only [hp, if_true]
        intro e he
        simp only [Set_apply, emissions, List.mem_singleton] at he
        subst he
        exact ⟨Or.inr (Or.inl rfl), by show (-1 : ℚ) ≤ -0.1; norm_num,
          by show (-0.1 : ℚ) ≤ 1; norm_num⟩
      · simp only [hp, if_false]
        exact h0
    | Carry =>
      by_cases hp : p > c.StowPosition
      · simp only [hp, if_true]
        intro e he
        simp only [Set_apply, emissions, List.mem_singleton] at he
        subst he
        exact ⟨Or.inr (Or.inr rfl), by show (-1 : ℚ) ≤ 0.2; norm_num,
          by show (0.2 : ℚ) ≤ 1; norm_num⟩
      · simp only [hp, if_false]
        exact h0

/-- Witness for C15 amended: the throw emitted by `Launch 0.6 0.3` from the constructed
state is `-0.6`, between -1 and 1. -/
theorem emitted_commands_in_range_witness :
    (commanded { constructed with isLaunchOverride := true } (-0.6)).CatapultSpeed = -0.6 ∧
    -1 ≤ (commanded { constructed with isLaunchOverride := true } (-0.6)).CatapultSpeed ∧
    (commanded { constructed with isLaunchOverride := true } (-0.6)).CatapultSpeed ≤ 1 :=
  ⟨rfl,
   ((emitted_commands_in_range constructed 0.6 0.3 2 (by norm_num)).2.2.1
      (commanded { constructed with isLaunchOverride := true } (-0.6))
      (by rw [emitted_of_apply (Launch_apply 0.6 0.3 constructed)]
          exact List.mem_cons_self _ _)).2⟩

/-- C16: the constructed state has the override flag off and mode `Idle`; every completed
call (`SetMode`, `SetManual`, `ProcessMode`, `PIDWrite`, `Launch`, the reload) entered with
the flag off returns with the flag off, so the flag is off in every state reached from the
constructed state by a sequence of completed calls. Among the emissions of a call entered
with the flag off, the flag is on exactly at those made inside `Launch`. -/
theorem override_false_outside_Launch (ks : List Call) (k : Call) (c : Catapult) :
    constructed.isLaunchOverride = false ∧
    constructed.Mode = CatapultModes.Idle ∧
    ((performAll ks).exec constructed).isLaunchOverride = false ∧
    (c.isLaunchOverride = false → ((perform k).exec c).isLaunchOverride = false) ∧
    (c.isLaunchOverride = false → ∀ e ∈ (perform k).emitted c,
      (e.isLaunchOverride = true ↔ ∃ s t, k = Call.launch s t)) ∧
    (∀ s t, ((Launch s t).emitted c).map (fun e => e.isLaunchOverride) = [true, true] ∧
      ((Launch s t).exec c).isLaunchOverride = false) := by
  have step : ∀ (j : Call) (d : Catapult), d.isLaunchOverride = false →
      ((perform j).exec d).isLaunchOverride = false := by
    intro j d hd
    rcases perform_shape j d with ⟨d2, h2, _, _, ho⟩ | ⟨v, hv, _⟩ | ⟨s, t, _, hl⟩
    · rw [exec_of_apply h2]
      exact ho.trans hd
    · rw [exec_of_apply hv, Set_apply]
      exact hd
    · rw [exec_of_apply hl, Launch_apply]
  refine ⟨rfl, rfl, ?_, step k c, ?_, ?_⟩
  · exact performAll_exec_invariant (fun d => d.isLaunchOverride = false) step ks constructed rfl
  · intro hc
    rcases perform_shape k c with ⟨d2, h2, _⟩ | ⟨v, hv, hk⟩ | ⟨s, t, hk, hl⟩
    · rw [emitted_of_apply h2]
      simp [emissions]
    · rw [emitted_of_apply hv, Set_apply]
      intro e he
      simp only [emissions, List.mem_singleton] at he
      subst he
      have hf : (commanded c v).isLaunchOverride = false := hc
      constructor
      · intro ht
        rw [hf] at ht
        exact absurd ht (by decide)
      · rintro ⟨s, t, hst⟩
        exact absurd hst (hk s t)
    · rw [emitted_of_apply hl, Launch_apply]
      intro e he
      simp only [emissions, List.mem_cons, List.mem_singleton, List.not_mem_nil,
        or_false] at he
      constructor
      · intro _
        exact ⟨s, t, hk⟩
      · intro _
        rcases he with he | he <;> subst he <;> rfl
  · intro s t
    rw [emitted_of_apply (Launch_apply s t c), exec_of_apply (Launch_apply s t c)]
    exact ⟨rfl, rfl⟩

/-- Witness for C16: after a feedback write from the constructed state the flag is still
off, and the emission of that feedback write does not carry the flag. -/
theorem override_false_outside_Launch_witness :
    ((perform (Call.pidWrite 0.4)).exec constructed).isLaunchOverride = false ∧
    ¬ (commanded constructed (-0.4)).isLaunchOverride = true :=
  ⟨(override_false_outside_Launch [] (Call.pidWrite 0.4) constructed).2.2.2.1 rfl,
   fun h => by
     have hk := ((override_false_outside_Launch [] (Call.pidWrite 0.4) constructed).2.2.2.2.1
       rfl (commanded constructed (-0.4))
       (by rw [emitted_of_apply (perform_apply (Call.pidWrite 0.4) constructed)]
           exact List.mem_cons_self _ _)).mp h
     obtain ⟨s, t, hst⟩ := hk
     exact Call.noConfusion hst⟩

/-! ## Feedback against the per-cycle evaluation, and the two hold bands -/

/-- C18: in mode `Idle`, `Pickup` or `Carry`, `PIDWrite x` followed by `ProcessMode` ends in
exactly the state `ProcessMode` alone ends in, for every reading and every `x`. In mode
`Manual` with the override off the feedback command `-x` is still on the actuator after
`ProcessMode`. -/
theorem ProcessMode_overwrites_feedback (c : Catapult) (p x : ℚ) :
    (c.Mode ≠ CatapultModes.Manual →
      (ProcessMode p).exec ((PIDWrite x).exec c) = (ProcessMode p).exec c ∧
      (do PIDWrite x; ProcessMode p : Op Unit).exec c = (ProcessMode p).exec c) ∧
    (c.Mode = CatapultModes.Manual → c.isLaunchOverride = false →
      (do PIDWrite x; ProcessMode p : Op Unit).exec c = commanded c (-x)) := by
  have hw : (PIDWrite x).exec c = c ∨ (PIDWrite x).exec c = commanded c (-x) := by
    rw [exec_of_apply (PIDWrite_apply x c)]
    by_cases h : c.isLaunchOverride = true <;> simp [h, Set_apply]
  have hover : ∀ w : ℚ, c.Mode ≠ CatapultModes.Manual →
      (ProcessMode p).exec (commanded c w) = (ProcessMode p).exec c := by
    intro w hm
    rw [exec_of_apply (ProcessMode_apply p (commanded c w)),
      exec_of_apply (ProcessMode_apply p c)]
    have e1 : (commanded c w).Mode = c.Mode := rfl
    have e2 : (commanded c w).CarryPosition = c.CarryPosition := rfl
    have e3 : (commanded c w).StowPosition = c.StowPosition := rfl
    rw [e1, e2, e3]
    cases hc : c.Mode with
    | Idle => rfl
    | Manual => exact absurd hc hm
    | Pickup => by_cases hp : p < c.CarryPosition <;> simp [hp, Set_apply, commanded]
    | Carry => by_cases hp : p > c.StowPosition <;> simp [hp, Set_apply, commanded]
  constructor
  · intro hm
    have h1 : (ProcessMode p).exec ((PIDWrite x).exec c) = (ProcessMode p).exec c := by
      rcases hw with h | h <;> rw [h]
      exact hover (-x) hm
    refine ⟨h1, ?_⟩
    rw [exec_bind]
    exact h1
  · intro hm ho
    rw [exec_bind]
    have h2 : (PIDWrite x).exec c = commanded c (-x) := by
      rw [exec_of_apply (PIDWrite_apply x c)]
      simp [ho, Set_apply]
    rw [h2]
    have h3 : ProcessMode p (commanded c (-x)) = ((), commanded c (-x), []) := by
      rw [ProcessMode_apply]
      have e1 : (commanded c (-x)).Mode = CatapultModes.Manual := hm
      rw [e1]
    exact exec_of_apply h3

/-- Witness for C18: in the constructed state (mode `Idle`) the feedback `0.4` is overwritten
by `ProcessMode`; in mode `Manual` it stays. -/
theorem ProcessMode_overwrites_feedback_witness :
    (do PIDWrite 0.4; ProcessMode 2 : Op Unit).exec constructed =
      (ProcessMode 2).exec constructed ∧
    (do PIDWrite 0.4; ProcessMode 2 : Op Unit).exec
        { constructed with Mode := CatapultModes.Manual } =
      commanded { constructed with Mode := CatapultModes.Manual } (-0.4) :=
  ⟨((ProcessMode_overwrites_feedback constructed 2 0.4).1 (by decide)).2,
   (ProcessMode_overwrites_feedback { constructed with Mode := CatapultModes.Manual } 2 0.4).2
      rfl rfl⟩

/-- C20: when `StowPosition < CarryPosition`, as with the default thresholds 1.9 and 2.15, at
every reading `p` strictly between them `ProcessMode` emits a non-zero hold in both modes:
`-0.1` in `Pickup` and `0.2` in `Carry`. For every reading, `ProcessMode` emits no positive
command in `Pickup` and no negative command in `Carry`. -/
theorem hold_bands_overlap (c : Catapult) (p : ℚ) :
    (c.StowPosition < p → p < c.CarryPosition →
      ((ProcessMode p).emitted ((SetMode CatapultModes.Pickup).exec c)).map
          (fun e => e.CatapultSpeed) = [-0.1] ∧
      ((ProcessMode p).emitted ((SetMode CatapultModes.Carry).exec c)).map
          (fun e => e.CatapultSpeed) = [0.2] ∧
      (-0.1 : ℚ) ≠ 0 ∧ (0.2 : ℚ) ≠ 0) ∧
    (∀ e ∈ (ProcessMode p).emitted ((SetMode CatapultModes.Pickup).exec c),
      e.CatapultSpeed ≤ 0) ∧
    (∀ e ∈ (ProcessMode p).emitted ((SetMode CatapultModes.Carry).exec c),
      0 ≤ e.CatapultSpeed) ∧
    constructed.StowPosition < constructed.CarryPosition := by
  have hP : ProcessMode p ((SetMode CatapultModes.Pickup).exec c) =
      if p < c.CarryPosition then Set (-0.1) ((SetMode CatapultModes.Pickup).exec c)
      else Set 0 ((SetMode CatapultModes.Pickup).exec c) := by
    rw [ProcessMode_apply]; rfl
  have hC : ProcessMode p ((SetMode CatapultModes.Carry).exec c) =
      if p > c.StowPosition then Set 0.2 ((SetMode CatapultModes.Carry).exec c)
      else Set 0 ((SetMode CatapultModes.Carry).exec c) := by
    rw [ProcessMode_apply]; rfl
  rw [emitted_of_apply hP, emitted_of_apply hC]
  refine ⟨?_, ?_, ?_, ?_⟩
  · intro h1 h2
    have h1g : p > c.StowPosition := h1
    rw [if_pos h2, if_pos h1g]
    refine ⟨rfl, rfl, ?_, ?_⟩ <;> norm_num
  · by_cases h : p < c.CarryPosition
    · rw [if_pos h]
      intro e he
      simp only [Set_apply, emissions, List.mem_singleton] at he
      subst he
      show (-0.1 : ℚ) ≤ 0
      norm_num
    · rw [if_neg h]
      intro e he
      simp only [Set_apply, emissions, List.mem_singleton] at he
      subst he
      exact le_refl (0 : ℚ)
  · by_cases h : p > c.StowPosition
    · rw [if_pos h]
      intro e he
      simp only [Set_apply, emissions, List.mem_singleton] at he
      subst he
      show (0 : ℚ) ≤ 0.2
      norm_num
    · rw [if_neg h]
      intro e he
      simp only [Set_apply, emissions, List.mem_singleton] at he
      subst he
      exact le_refl (0 : ℚ)
  · norm_num [constructed]

/-- Witness for C20: with the default thresholds the reading 2 lies in both hold bands. -/
theorem hold_bands_overlap_witness :
    ((ProcessMode 2).emitted ((SetMode CatapultModes.Pickup).exec constructed)).map
        (fun e => e.CatapultSpeed) = [-0.1] ∧
    ((ProcessMode 2).emitted ((SetMode CatapultModes.Carry).exec constructed)).map
        (fun e => e.CatapultSpeed) = [0.2] :=
  ⟨((hold_bands_overlap constructed 2).1 (by norm_num [constructed])
      (by norm_num [constructed])).1,
   ((hold_bands_overlap constructed 2).1 (by norm_num [constructed])
      (by norm_num [constructed])).2.1⟩


end Catapult

namespace RobotDemo

open Catapult hiding Set

/-! ## The operator cycle -/

theorem ProcessLaunchStickOther_stages (lt : ℚ) (b : ℕ → Bool) (a : ℕ → ℚ) (v : ℚ) :
    ProcessLaunchStickOther lt b a v =
      ((if b 5 = true then SetMode CatapultModes.Pickup else pure PUnit.unit) >>= fun _ =>
       (if b 4 = true then SetMode CatapultModes.Carry else pure PUnit.unit) >>= fun _ =>
       (if (b 7 || b 10) = true then SetMode CatapultModes.Idle else pure PUnit.unit)
        >>= fun _ =>
       (if b 1 = true then
          (SetMode CatapultModes.Idle >>= fun _ => Launch (GetAnalogScaled a 1 0.5 1) lt)
        else pure PUnit.unit) >>= fun _ =>
       (if b 11 = true then (SetMode CatapultModes.Manual >>= fun _ => SetManual 0.1)
        else if b 6 = true then (SetMode CatapultModes.Manual >>= fun _ => SetManual (-0.1))
        else SetManual 0) >>= fun _ =>
       ProcessMode v) := by
  unfold ProcessLaunchStickOther
  generalize b 5 = b5
  generalize b 4 = b4
  generalize (b 7 || b 10) = b7
  generalize b 1 = b1
  generalize b 11 = b11
  generalize b 6 = b6
  cases b5 <;> cases b4 <;> cases b7 <;> cases b1 <;> cases b11 <;> cases b6 <;> rfl

theorem manual_stage_forward (v : ℚ) (d : Catapult) :
    (ProcessMode v).exec
        ((SetMode CatapultModes.Manual >>= fun _ => SetManual 0.1).exec d) =
      commanded { d with Mode := CatapultModes.Manual } 0.1 := by
  have h1 : (SetMode CatapultModes.Manual >>= fun _ => SetManual 0.1) d =
      Catapult.Set 0.1 { d with Mode := CatapultModes.Manual } := by
    rw [bind_apply, SetMode_apply, SetManual_apply]
    rfl
  rw [exec_of_apply h1, Set_apply, exec_of_apply (ProcessMode_apply v _)]
  rfl

theorem manual_stage_reverse (v : ℚ) (d : Catapult) :
    (ProcessMode v).exec
        ((SetMode CatapultModes.Manual >>= fun _ => SetManual (-0.1)).exec d) =
      commanded { d with Mode := CatapultModes.Manual } (-0.1) := by
  have h1 : (SetMode CatapultModes.Manual >>= fun _ => SetManual (-0.1)) d =
      Catapult.Set (-0.1) { d with Mode := CatapultModes.Manual } := by
    rw [bind_apply, SetMode_apply, SetManual_apply]
    rfl
  rw [exec_of_apply h1, Set_apply, exec_of_apply (ProcessMode_apply v _)]
  rfl

theorem manual_stage_idle (v : ℚ) (d : Catapult) (h : d.Mode ≠ CatapultModes.Manual) :
    (ProcessMode v).exec ((SetManual 0).exec d) = (ProcessMode v).exec d := by
  have h1 : SetManual 0 d = ((), d, []) := by rw [SetManual_apply, if_neg h]
  rw [exec_of_apply h1]

theorem select_stages_Mode (lt : ℚ) (b : ℕ → Bool) (a : ℕ → ℚ) (c : Catapult) :
    ((if b 1 = true then
          (SetMode CatapultModes.Idle >>= fun _ => Launch (GetAnalogScaled a 1 0.5 1) lt)
        else pure PUnit.unit : Op PUnit).exec
      ((if (b 7 || b 10) = true then SetMode CatapultModes.Idle else pure PUnit.unit
          : Op PUnit).exec
        ((if b 4 = true then SetMode CatapultModes.Carry else pure PUnit.unit : Op PUnit).exec
          ((if b 5 = true then SetMode CatapultModes.Pickup else pure PUnit.unit
              : Op PUnit).exec c)))).Mode =
      if b 1 = true ∨ b 7 = true ∨ b 10 = true then CatapultModes.Idle
      else if b 4 = true then CatapultModes.Carry
      else if b 5 = true then CatapultModes.Pickup
      else c.Mode := by
  cases h5 : b 5 <;> cases h4 : b 4 <;> cases h7 : b 7 <;> cases h10 : b 10 <;>
    cases h1 : b 1 <;> rfl

theorem ProcessLaunchStickOther_exec (lt : ℚ) (b : ℕ → Bool) (a : ℕ → ℚ) (v : ℚ)
    (c : Catapult) :
    ∃ d : Catapult,
      d.Mode =
        (if b 1 = true ∨ b 7 = true ∨ b 10 = true then CatapultModes.Idle
         else if b 4 = true then CatapultModes.Carry
         else if b 5 = true then CatapultModes.Pickup
         else c.Mode) ∧
      (ProcessLaunchStickOther lt b a v).exec c =
        (ProcessMode v).exec
          ((if b 11 = true then (SetMode CatapultModes.Manual >>= fun _ => SetManual 0.1)
            else if b 6 = true then
              (SetMode CatapultModes.Manual >>= fun _ => SetManual (-0.1))
            else SetManual 0 : Op Unit).exec d) :=
  ⟨_, select_stages_Mode lt b a c, by rw [ProcessLaunchStickOther_stages]; rfl⟩

theorem ProcessMode_keeps_Mode (v : ℚ) (d : Catapult) :
    ((ProcessMode v).exec d).Mode = d.Mode := by
  rw [exec_of_apply (ProcessMode_apply v d)]
  cases hm : d.Mode with
  | Idle => exact hm
  | Manual => exact hm
  | Pickup => by_cases hp : v < d.CarryPosition <;> simp only [hp, if_true, if_false] <;> exact hm
  | Carry => by_cases hp : v > d.StowPosition <;> simp only [hp, if_true, if_false] <;> exact hm

/-- C17: the cycle applies the selects in the order Pickup (button 5), Carry (button 4), Idle
(button 7 or 10), Launch (button 1), then Manual-forward (button 11) else Manual-reverse
(button 6) else `SetManual 0`, and ends with `ProcessMode`. So, whatever the other buttons
and the starting state: with button 11 held the cycle ends in mode `Manual` with command
`0.1`; with button 6 held and 11 not, in mode `Manual` with command `-0.1`; with neither
manual button held and button 7, 10 or 1 held, in mode `Idle` with command 0, also when
button 5 or 4 is held. With none of these held, button 4 gives mode `Carry`, else button 5
gives mode `Pickup`, else the mode is unchanged. -/
theorem cycle_priority_order (lt : ℚ) (b : ℕ → Bool) (a : ℕ → ℚ) (v : ℚ) (c : Catapult) :
    (ProcessLaunchStickOther lt b a v =
      ((if b 5 = true then SetMode CatapultModes.Pickup else pure PUnit.unit) >>= fun _ =>
       (if b 4 = true then SetMode CatapultModes.Carry else pure PUnit.unit) >>= fun _ =>
       (if (b 7 || b 10) = true then SetMode CatapultModes.Idle else pure PUnit.unit)
        >>= fun _ =>
       (if b 1 = true then
          (SetMode CatapultModes.Idle >>= fun _ => Launch (GetAnalogScaled a 1 0.5 1) lt)
        else pure PUnit.unit) >>= fun _ =>
       (if b 11 = true then (SetMode CatapultModes.Manual >>= fun _ => SetManual 0.1)
        else if b 6 = true then (SetMode CatapultModes.Manual >>= fun _ => SetManual (-0.1))
        else SetManual 0) >>= fun _ =>
       ProcessMode v)) ∧
    (b 11 = true →
      ((ProcessLaunchStickOther lt b a v).exec c).Mode = CatapultModes.Manual ∧
      ((ProcessLaunchStickOther lt b a v).exec c).CatapultSpeed = 0.1 ∧
      outputs ((ProcessLaunchStickOther lt b a v).exec c) = (0.1, 0.1, -0.1, -0.1)) ∧
    (b 11 = false → b 6 = true →
      ((ProcessLaunchStickOther lt b a v).exec c).Mode = CatapultModes.Manual ∧
      ((ProcessLaunchStickOther lt b a v).exec c).CatapultSpeed = -0.1 ∧
      outputs ((ProcessLaunchStickOther lt b a v).exec c) = (-0.1, -0.1, 0.1, 0.1)) ∧
    (b 11 = false → b 6 = false → (b 7 = true ∨ b 10 = true ∨ b 1 = true) →
      ((ProcessLaunchStickOther lt b a v).exec c).Mode = CatapultModes.Idle ∧
      ((ProcessLaunchStickOther lt b a v).exec c).CatapultSpeed = 0 ∧
      outputs ((ProcessLaunchStickOther lt b a v).exec c) = (0, 0, 0, 0)) ∧
    (b 11 = false → b 6 = false → b 7 = false → b 10 = false → b 1 = false →
      ((ProcessLaunchStickOther lt b a v).exec c).Mode =
        (if b 4 = true then CatapultModes.Carry
         else if b 5 = true then CatapultModes.Pickup
         else c.Mode)) := by
  obtain ⟨d, hd, hf⟩ := ProcessLaunchStickOther_exec lt b a v c
  refine ⟨ProcessLaunchStickOther_stages lt b a v, ?_, ?_, ?_, ?_⟩
  · intro h11
    rw [hf, if_pos h11, manual_stage_forward]
    exact ⟨rfl, rfl, rfl⟩
  · intro h11 h6
    have n11 : ¬ b 11 = true := by simp [h11]
    rw [hf, if_neg n11, if_pos h6, manual_stage_reverse]
    refine ⟨rfl, rfl, ?_⟩
    simp [outputs, commanded]
  · intro h11 h6 hsel
    have n11 : ¬ b 11 = true := by simp [h11]
    have n6 : ¬ b 6 = true := by simp [h6]
    have hsel2 : b 1 = true ∨ b 7 = true ∨ b 10 = true := by tauto
    rw [if_pos hsel2] at hd
    have hm : d.Mode ≠ CatapultModes.Manual := by rw [hd]; decide
    rw [hf, if_neg n11, if_neg n6, manual_stage_idle v d hm]
    have hp : ProcessMode v d = Catapult.Set 0 d := by rw [ProcessMode_apply, hd]
    rw [exec_of_apply hp, Set_apply]
    refine ⟨hd, rfl, ?_⟩
    simp [outputs, commanded]
  · intro h11 h6 h7 h10 h1
    have n11 : ¬ b 11 = true := by simp [h11]
    have n6 : ¬ b 6 = true := by simp [h6]
    have nsel : ¬ (b 1 = true ∨ b 7 = true ∨ b 10 = true) := by simp [h1, h7, h10]
    rw [if_neg nsel] at hd
    rw [hf, if_neg n11, if_neg n6, ProcessMode_keeps_Mode, ← hd]
    rw [exec_of_apply (SetManual_apply 0 d)]
    by_cases hm : d.Mode = CatapultModes.Manual
    · rw [if_pos hm]; rfl
    · rw [if_neg hm]

/-- Witness for C17: with buttons 5 and 7 held the cycle ends idle with command 0; with
buttons 5, 1 and 11 held it ends in mode `Manual` with command `0.1`. -/
theorem cycle_priority_order_witness :
    ((ProcessLaunchStickOther 0.3 (fun n => n = 5 || n = 7) (fun _ => 2.5) 2).exec
        constructed).Mode = CatapultModes.Idle ∧
    ((ProcessLaunchStickOther 0.3 (fun n => n = 5 || n = 1 || n = 11) (fun _ => 2.5) 2).exec
        constructed).CatapultSpeed = 0.1 :=
  ⟨((cycle_priority_order 0.3 (fun n => n = 5 || n = 7) (fun _ => 2.5) 2 constructed).2.2.2.1
      (by decide) (by decide) (by decide)).1,
   ((cycle_priority_order 0.3 (fun n => n = 5 || n = 1 || n = 11) (fun _ => 2.5) 2
      constructed).2.1 (by decide)).2.1⟩

theorem forall_emitted_bind {α β : Type} (P : Catapult → Prop) (m : Op α) (f : α → Op β)
    (hm : ∀ c, ∀ e ∈ m.emitted c, P e) (hf : ∀ x c, ∀ e ∈ (f x).emitted c, P e) :
    ∀ c, ∀ e ∈ (m >>= f).emitted c, P e := by
  intro c e he
  rw [emitted_bind] at he
  rcases List.mem_append.mp he with h | h
  · exact hm c e h
  · exact hf _ _ e h

theorem forall_emitted_ite {α : Type} (P : Catapult → Prop) (q : Prop) [Decidable q]
    (m n : Op α) (hm : ∀ c, ∀ e ∈ m.emitted c, P e) (hn : ∀ c, ∀ e ∈ n.emitted c, P e) :
    ∀ c, ∀ e ∈ (if q then m else n).emitted c, P e := by
  by_cases h : q
  · rw [if_pos h]; exact hm
  · rw [if_neg h]; exact hn

theorem emitted_pure_unit (c : Catapult) : ∀ e ∈ (pure PUnit.unit : Op PUnit).emitted c,
    -1 ≤ e.CatapultSpeed ∧ e.CatapultSpeed ≤ 1 := by
  intro e he
  exact absurd he (List.not_mem_nil e)

theorem emitted_SetMode (m : CatapultModes) (c : Catapult) : ∀ e ∈ (SetMode m).emitted c,
    -1 ≤ e.CatapultSpeed ∧ e.CatapultSpeed ≤ 1 := by
  intro e he
  exact absurd he (List.not_mem_nil e)

theorem emitted_SetManual (x : ℚ) (hx : -1 ≤ x ∧ x ≤ 1) (c : Catapult) :
    ∀ e ∈ (SetManual x).emitted c, -1 ≤ e.CatapultSpeed ∧ e.CatapultSpeed ≤ 1 := by
  rw [emitted_of_apply (SetManual_apply x c)]
  by_cases h : c.Mode = CatapultModes.Manual
  · rw [if_pos h, Set_apply]
    intro e he
    simp only [emissions, List.mem_singleton] at he
    subst he
    exact hx
  · rw [if_neg h]
    intro e he
    exact absurd he (List.not_mem_nil e)

theorem emitted_Launch (s t : ℚ) (hs : -1 ≤ -s ∧ -s ≤ 1) (c : Catapult) :
    ∀ e ∈ (Launch s t).emitted c, -1 ≤ e.CatapultSpeed ∧ e.CatapultSpeed ≤ 1 := by
  rw [emitted_of_apply (Launch_apply s t c)]
  intro e he
  simp only [emissions, List.mem_cons, List.mem_singleton, List.not_mem_nil, or_false] at he
  rcases he with he | he <;> subst he
  · exact hs
  · exact ⟨by show (-1 : ℚ) ≤ 0; norm_num, by show (0 : ℚ) ≤ 1; norm_num⟩

theorem emitted_ProcessMode (p : ℚ) (c : Catapult) :
    ∀ e ∈ (ProcessMode p).emitted c, -1 ≤ e.CatapultSpeed ∧ e.CatapultSpeed ≤ 1 := by
  have hset : ∀ w : ℚ, -1 ≤ w ∧ w ≤ 1 → ∀ e ∈ emissions (Catapult.Set w c).2.2,
      -1 ≤ e.CatapultSpeed ∧ e.CatapultSpeed ≤ 1 := by
    intro w hw e he
    simp only [Set_apply, emissions, List.mem_singleton] at he
    subst he
    exact hw
  rw [emitted_of_apply (ProcessMode_apply p c)]
  cases hm : c.Mode with
  | Idle => exact hset 0 (by norm_num)
  | Manual =>
    intro e he
    exact absurd he (List.not_mem_nil e)
  | Pickup =>
    by_cases hp : p < c.CarryPosition
    · simp only [hp, if_true]
      exact hset (-0.1) (by norm_num)
    · simp only [hp, if_false]
      exact hset 0 (by norm_num)
  | Carry =>
    by_cases hp : p > c.StowPosition
    · simp only [hp, if_true]
      exact hset 0.2 (by norm_num)
    · simp only [hp, if_false]
      exact hset 0 (by norm_num)

theorem Launch_throw_emitted (s t : ℚ) (d : Catapult) :
    ∃ e ∈ (Launch s t).emitted d, e.isLaunchOverride = true ∧ e.CatapultSpeed = -s := by
  rw [emitted_of_apply (Launch_apply s t d)]
  exact ⟨_, List.mem_cons_self _ _, rfl, rfl⟩

theorem GetAnalogScaled_bounds (analogIn : ℕ → ℚ) (channel : ℕ) (minimum maximum : ℚ)
    (h0 : 0 ≤ analogIn channel) (h5 : analogIn channel ≤ 5) (hmm : minimum ≤ maximum) :
    minimum ≤ GetAnalogScaled analogIn channel minimum maximum ∧
    GetAnalogScaled analogIn channel minimum maximum ≤ maximum := by
  have e : GetAnalogScaled analogIn channel minimum maximum =
      (analogIn channel / 5) * (maximum - minimum) + minimum := rfl
  have hr0 : 0 ≤ analogIn channel / 5 := div_nonneg h0 (by norm_num)
  have hr1 : analogIn channel / 5 ≤ 1 := by
    rw [div_le_one (by norm_num)]
    exact h5
  have hd : 0 ≤ maximum - minimum := sub_nonneg.mpr hmm
  have hlo : 0 ≤ (analogIn channel / 5) * (maximum - minimum) := mul_nonneg hr0 hd
  have hhi : (analogIn channel / 5) * (maximum - minimum) ≤ maximum - minimum :=
    mul_le_of_le_one_left hd hr1
  rw [e]
  constructor <;> linarith

/-- C19: `GetAnalogScaled` returns `(r / 5) * (maximum - minimum) + minimum` for the raw input
`r`; for `0 ≤ r ≤ 5` and `minimum ≤ maximum` this lies between `minimum` and `maximum`, and it
is `minimum` at `r = 0` and `maximum` at `r = 5`. So with the raw input of channel 1 between 0
and 5 the launch speed lies between 0.5 and 1, the launch throw `-speed` lies between -1 and
-0.5 and is emitted when button 1 is held, and every command emitted during one cycle of
`ProcessLaunchStickOther` lies between -1 and 1, for every button combination, reading,
launch time and starting state. -/
theorem cycle_commands_in_range (analogIn : ℕ → ℚ) (channel : ℕ) (minimum maximum : ℚ)
    (lt : ℚ) (b : ℕ → Bool) (v : ℚ) (c : Catapult) :
    GetAnalogScaled analogIn channel minimum maximum =
      (analogIn channel / 5) * (maximum - minimum) + minimum ∧
    (0 ≤ analogIn channel → analogIn channel ≤ 5 → minimum ≤ maximum →
      minimum ≤ GetAnalogScaled analogIn channel minimum maximum ∧
      GetAnalogScaled analogIn channel minimum maximum ≤ maximum) ∧
    (analogIn channel = 0 → GetAnalogScaled analogIn channel minimum maximum = minimum) ∧
    (analogIn channel = 5 → GetAnalogScaled analogIn channel minimum maximum = maximum) ∧
    (0 ≤ analogIn 1 → analogIn 1 ≤ 5 →
      (0.5 ≤ GetAnalogScaled analogIn 1 0.5 1 ∧ GetAnalogScaled analogIn 1 0.5 1 ≤ 1) ∧
      (-1 ≤ -GetAnalogScaled analogIn 1 0.5 1 ∧ -GetAnalogScaled analogIn 1 0.5 1 ≤ -0.5) ∧
      (b 1 = true → ∃ e ∈ (ProcessLaunchStickOther lt b analogIn v).emitted c,
        e.isLaunchOverride = true ∧ e.CatapultSpeed = -GetAnalogScaled analogIn 1 0.5 1) ∧
      (∀ e ∈ (ProcessLaunchStickOther lt b analogIn v).emitted c,
        -1 ≤ e.CatapultSpeed ∧ e.CatapultSpeed ≤ 1)) := by
  have e : GetAnalogScaled analogIn channel minimum maximum =
      (analogIn channel / 5) * (maximum - minimum) + minimum := rfl
  refine ⟨e, GetAnalogScaled_bounds analogIn channel minimum maximum, ?_, ?_, ?_⟩
  · intro h
    rw [e, h]
    ring
  · intro h
    rw [e, h]
    ring
  · intro h0 h5
    have hs := GetAnalogScaled_bounds analogIn 1 0.5 1 h0 h5 (by norm_num)
    have hneg : -1 ≤ -GetAnalogScaled analogIn 1 0.5 1 ∧
        -GetAnalogScaled analogIn 1 0.5 1 ≤ 1 := by
      constructor <;> linarith [hs.1, hs.2]
    refine ⟨hs, ⟨by linarith [hs.2], by linarith [hs.1]⟩, ?_, ?_⟩
    · intro h1
      rw [ProcessLaunchStickOther_stages]
      simp only [emitted_bind, if_pos h1, List.mem_append]
      obtain ⟨e, he, hp⟩ := Launch_throw_emitted (GetAnalogScaled analogIn 1 0.5 1) lt
        ((SetMode CatapultModes.Idle).exec
          ((if (b 7 || b 10) = true then SetMode CatapultModes.Idle else pure PUnit.unit
              : Op PUnit).exec
            ((if b 4 = true then SetMode CatapultModes.Carry else pure PUnit.unit
                : Op PUnit).exec
              ((if b 5 = true then SetMode CatapultModes.Pickup else pure PUnit.unit
                  : Op PUnit).exec c))))
      exact ⟨e, Or.inr (Or.inr (Or.inr (Or.inl (Or.inr he)))), hp⟩
    · rw [ProcessLaunchStickOther_stages]
      refine forall_emitted_bind _ _ _
        (forall_emitted_ite _ _ _ _ (emitted_SetMode _) emitted_pure_unit) (fun _ => ?_) c
      refine forall_emitted_bind _ _ _
        (forall_emitted_ite _ _ _ _ (emitted_SetMode _) emitted_pure_unit) (fun _ => ?_)
      refine forall_emitted_bind _ _ _
        (forall_emitted_ite _ _ _ _ (emitted_SetMode _) emitted_pure_unit) (fun _ => ?_)
      refine forall_emitted_bind _ _ _
        (forall_emitted_ite _ _ _ _
          (forall_emitted_bind _ _ _ (emitted_SetMode _) (fun _ => emitted_Launch _ _ hneg))
          emitted_pure_unit) (fun _ => ?_)
      refine forall_emitted_bind _ _ _ ?_ (fun _ => emitted_ProcessMode v)
      refine forall_emitted_ite _ _ _ _
        (forall_emitted_bind _ _ _ (emitted_SetMode _)
          (fun _ => emitted_SetManual 0.1 (by norm_num)))
        (forall_emitted_ite _ _ _ _
          (forall_emitted_bind _ _ _ (emitted_SetMode _)
            (fun _ => emitted_SetManual (-0.1) (by norm_num)))
          (emitted_SetManual 0 (by norm_num)))

/-- Witness for C19: raw input 2.5 on channel 1 gives a launch speed between 0.5 and 1, and a
throw between -1 and -0.5. -/
theorem cycle_commands_in_range_witness :
    (0.5 ≤ GetAnalogScaled (fun _ => 2.5) 1 0.5 1 ∧ GetAnalogScaled (fun _ => 2.5) 1 0.5 1 ≤ 1) ∧
    (-1 ≤ -GetAnalogScaled (fun _ => 2.5) 1 0.5 1 ∧
      -GetAnalogScaled (fun _ => 2.5) 1 0.5 1 ≤ -0.5) ∧
    GetAnalogScaled (fun _ => 5) 1 0.5 1 = 1 ∧
    (∃ e ∈ (ProcessLaunchStickOther 0.3 (fun n => n = 1) (fun _ => 2.5) 2).emitted constructed,
      e.isLaunchOverride = true ∧ e.CatapultSpeed = -GetAnalogScaled (fun _ => 2.5) 1 0.5 1) :=
  ⟨((cycle_commands_in_range (fun _ => 2.5) 1 0.5 1 0.3 (fun n => n = 1) 2 constructed).2.2.2.2
      (by norm_num) (by norm_num)).1,
   ((cycle_commands_in_range (fun _ => 2.5) 1 0.5 1 0.3 (fun n => n = 1) 2 constructed).2.2.2.2
      (by norm_num) (by norm_num)).2.1,
   (cycle_commands_in_range (fun _ => 5) 1 0.5 1 0.3 (fun n => n = 1) 2 constructed).2.2.2.1
      rfl,
   ((cycle_commands_in_range (fun _ => 2.5) 1 0.5 1 0.3 (fun n => n = 1) 2 constructed).2.2.2.2
      (by norm_num) (by norm_num)).2.2.1 (by decide)⟩

end RobotDemo
